import Mathlib

set_option maxHeartbeats 1000000
set_option maxRecDepth 4000

/-!
Verification of the tag_scraping_database crawl pipeline.

Shallow embedding of the scraper's pure logic:
* `DbHelpers` — the idempotent upsert helpers of `src/scraper/db_helpers.py`
  over a list-modelled relational store (SQLAlchemy `query ... first` /
  `add` / field assignment become first-match lookup, append and in-place
  record update; `datetime.now` becomes an explicit `now` argument).
* `Py` — the Python string/dict primitives the scraper uses
  (`str.strip`, `re.sub`-whitespace-collapse, `str.upper`, `str.isdigit`,
  `str.replace`, insertion-ordered `dict`).  Case mapping and the
  whitespace/digit classes are modelled for ASCII, which covers every
  string the scraper compares against.

Further sections embed the level extractors, the retry engine, the cache
manager, the URL builder, the async client and the rate limiter.
-/

namespace Py

/-- ASCII whitespace, the characters `str.strip()` and the regex class
`\s` act on in the scraper's inputs. -/
def isSpaceChar (c : Char) : Bool :=
  c == ' ' || c == '\t' || c == '\n' || c == '\r' || c == '\x0b' || c == '\x0c'

/-- `str.strip()`: drop leading and trailing whitespace. -/
def stripChars (l : List Char) : List Char :=
  ((l.dropWhile isSpaceChar).reverse.dropWhile isSpaceChar).reverse

/-- One pass of `re.sub(r"\s+", " ", ·)`: every maximal whitespace run
becomes a single space.  The boolean flag records whether the previous
character was whitespace. -/
def collapseAux : Bool → List Char → List Char
  | _, [] => []
  | prev, c :: cs =>
    if isSpaceChar c then
      if prev then collapseAux true cs else ' ' :: collapseAux true cs
    else c :: collapseAux false cs

/-- `normalize_text` as defined identically in `sport_years_scraper.py`,
`enhanced_sets_scraper.py`, `cards_scraper.py` and
`card_grade_rows_scraper.py`: trim, then collapse internal whitespace. -/
def normalize_text (s : String) : String :=
  ⟨collapseAux false (stripChars s.data)⟩

/-- `str.upper()` restricted to ASCII (`Char.toUpper`). -/
def pyUpper (s : String) : String :=
  ⟨s.data.map Char.toUpper⟩

/-- `str.lower()` restricted to ASCII (`Char.toLower`). -/
def pyLower (s : String) : String :=
  ⟨s.data.map Char.toLower⟩

/-- `str.isdigit()` for ASCII digits: non-empty and all characters 0-9. -/
def pyIsDigit (s : String) : Bool :=
  !s.data.isEmpty && s.data.all Char.isDigit

/-- `str.replace(c, r)` for a one-character pattern, the only shape the
scraper uses (`.replace(",", "")`, `.replace("-", "0")`). -/
def replaceChar (s : String) (c : Char) (r : String) : String :=
  ⟨s.data.foldr (fun x acc => (if x == c then r.data else [x]) ++ acc) []⟩

/-- `int(·)` on an all-digit string. -/
def parseNatDigits (s : String) : Nat :=
  s.data.foldl (fun n c => n * 10 + (c.toNat - 48)) 0

/-- Prefix test on lists, for the substring test below. -/
def listIsPre [DecidableEq α] : List α → List α → Bool
  | [], _ => true
  | _ :: _, [] => false
  | a :: as, b :: bs => if a = b then listIsPre as bs else false

/-- Substring occurrence on lists. -/
def listInfix [DecidableEq α] (n : List α) : List α → Bool
  | [] => decide (n = [])
  | b :: bs => listIsPre n (b :: bs) || listInfix n bs

/-- Python's `needle in haystack` on strings: substring test. -/
def pyIn (needle hay : String) : Bool :=
  listInfix needle.data hay.data

/-- `s.startswith(pre)` (character-level, fully evaluable). -/
def pyStarts (s pre : String) : Bool :=
  listIsPre pre.data s.data

/-- `s.endswith(suf)` (character-level, fully evaluable). -/
def pyEnds (s suf : String) : Bool :=
  listIsPre suf.data.reverse s.data.reverse

/-- Insertion-ordered Python `dict` with string keys. -/
abbrev PyDict (β : Type) := List (String × β)

/-- `d[k]` / `d.get(k)`: first (unique) binding for `k`. -/
def dictGet? (d : PyDict β) (k : String) : Option β :=
  (d.find? (fun p => p.1 == k)).map Prod.snd

/-- `d[k] = v`: replace the value in place when the key exists, else
append a new binding (Python dicts preserve insertion order). -/
def dictSet (d : PyDict β) (k : String) (v : β) : PyDict β :=
  match d with
  | [] => [(k, v)]
  | (k', v') :: rest =>
    if k' = k then (k', v) :: rest else (k', v') :: dictSet rest k v

/-- `k in d`. -/
def dictHas (d : PyDict β) (k : String) : Bool :=
  (dictGet? d k).isSome

/-- `str.zfill(2)`, as used on one- or two-digit date fragments. -/
def zfill2 (s : String) : String :=
  if s.length ≥ 2 then s else "0" ++ s

/-- `del d[k]` (keys are unique, so filtering removes the one binding). -/
def dictDel (d : PyDict β) (k : String) : PyDict β :=
  d.filter (fun p => p.1 != k)

end Py

/-! ## Persistence helpers (`src/scraper/db_helpers.py`)

The store is a list of rows in insertion order; `session.query(T)
.filter_by(key...).first()` is first-match lookup, `session.add` appends,
attribute assignment updates the matched row in place.  `datetime.now` is
the explicit `now : Int` argument.  A metric value is an `int` or a `str`.
-/

inductive MetricVal : Type
  | int (n : Nat)
  | str (s : String)
  deriving DecidableEq, Repr

abbrev Metrics := Py.PyDict MetricVal

namespace DbHelpers

/-- One row of `card_grade_rows`.  The keyword payload of
`upsert_card_grade_row` is the fixed field set its callers pass
(`multi_level_orchestrator.scrape_card_grade_rows`); all are real columns,
so the `hasattr` guard in the source is always true for them. -/
structure CardGradeRow where
  sport : String
  year : String
  set_title : String
  card_name : String
  card_url : String
  cert_number : String
  rank : Option String
  tag_grade : Option String
  report_url : Option String
  rank_by_grade : Option String
  chronology : Option String
  chron_by_grade : Option String
  completed_date_raw : Option String
  completed_date_iso : Option String
  discovered_at : Int
  deriving DecidableEq, Repr

/-- The non-key keyword payload of `upsert_card_grade_row`. -/
structure GradeRowKwargs where
  rank : Option String
  tag_grade : Option String
  report_url : Option String
  rank_by_grade : Option String
  chronology : Option String
  chron_by_grade : Option String
  completed_date_raw : Option String
  completed_date_iso : Option String
  deriving DecidableEq, Repr

/-- `filter_by(sport=…, year=…, set_title=…, card_name=…, cert_number=…)`:
the natural-key match used by `upsert_card_grade_row`. -/
def cgrKeyMatch (r : CardGradeRow) (sport year set_title card_name cert_number : String) : Bool :=
  r.sport == sport && r.year == year && r.set_title == set_title &&
    r.card_name == card_name && r.cert_number == cert_number

/-- The row built on the insert path of `upsert_card_grade_row`. -/
def mkCardGradeRow (now : Int) (sport year set_title card_name card_url cert_number : String)
    (kw : GradeRowKwargs) : CardGradeRow :=
  { sport := sport, year := year, set_title := set_title, card_name := card_name,
    card_url := card_url, cert_number := cert_number,
    rank := kw.rank, tag_grade := kw.tag_grade, report_url := kw.report_url,
    rank_by_grade := kw.rank_by_grade, chronology := kw.chronology,
    chron_by_grade := kw.chron_by_grade, completed_date_raw := kw.completed_date_raw,
    completed_date_iso := kw.completed_date_iso, discovered_at := now }

/-- The update path of `upsert_card_grade_row`: `card_url` and every
keyword field are overwritten; key fields and `discovered_at` are not. -/
def updateCardGradeRow (r : CardGradeRow) (card_url : String) (kw : GradeRowKwargs) : CardGradeRow :=
  { r with card_url := card_url,
           rank := kw.rank, tag_grade := kw.tag_grade, report_url := kw.report_url,
           rank_by_grade := kw.rank_by_grade, chronology := kw.chronology,
           chron_by_grade := kw.chron_by_grade, completed_date_raw := kw.completed_date_raw,
           completed_date_iso := kw.completed_date_iso }

/-- `upsert_card_grade_row` (db_helpers.py lines 426-473): first match on
the natural key is updated in place, otherwise a new row is appended. -/
def upsert_card_grade_row (now : Int) (sport year set_title card_name card_url cert_number : String)
    (kw : GradeRowKwargs) : List CardGradeRow → List CardGradeRow
  | [] => [mkCardGradeRow now sport year set_title card_name card_url cert_number kw]
  | r :: rs =>
    if cgrKeyMatch r sport year set_title card_name cert_number then
      updateCardGradeRow r card_url kw :: rs
    else
      r :: upsert_card_grade_row now sport year set_title card_name card_url cert_number kw rs

/-- One row of `totals_rollups`. -/
structure TotalsRollup where
  scope : String
  sport : String
  year : Option String
  set_title : Option String
  card_name : Option String
  metrics : Metrics
  computed_at : Int
  deriving DecidableEq, Repr

/-- `filter_by(scope=…, sport=…, year=…, set_title=…, card_name=…)`. -/
def trKeyMatch (r : TotalsRollup) (scope sport : String)
    (year set_title card_name : Option String) : Bool :=
  r.scope == scope && r.sport == sport && r.year == year &&
    r.set_title == set_title && r.card_name == card_name

/-- `upsert_totals_rollups` (db_helpers.py lines 341-382).  `metrics or {}`
maps `None` to the empty dict (and the empty dict to itself); the update
path overwrites `metrics` and refreshes `computed_at`. -/
def upsert_totals_rollups (now : Int) (scope sport : String)
    (year set_title card_name : Option String) (metrics : Option Metrics) :
    List TotalsRollup → List TotalsRollup
  | [] => [{ scope := scope, sport := sport, year := year, set_title := set_title,
             card_name := card_name, metrics := metrics.getD [], computed_at := now }]
  | r :: rs =>
    if trKeyMatch r scope sport year set_title card_name then
      { r with metrics := metrics.getD [], computed_at := now } :: rs
    else
      r :: upsert_totals_rollups now scope sport year set_title card_name metrics rs

/-- Does the grade-row table contain a row with this natural key? -/
def cgrHasKey (tbl : List CardGradeRow) (sport year set_title card_name cert_number : String) : Bool :=
  tbl.any (fun r => cgrKeyMatch r sport year set_title card_name cert_number)

/-- Does the rollup table contain a row with this natural key? -/
def trHasKey (tbl : List TotalsRollup) (scope sport : String)
    (year set_title card_name : Option String) : Bool :=
  tbl.any (fun r => trKeyMatch r scope sport year set_title card_name)

/-- Natural key of a grade row, as a tuple. -/
def cgrKey (r : CardGradeRow) : String × String × String × String × String :=
  (r.sport, r.year, r.set_title, r.card_name, r.cert_number)

/-- Natural key of a rollup row, as a tuple. -/
def trKey (r : TotalsRollup) : String × String × Option String × Option String × Option String :=
  (r.scope, r.sport, r.year, r.set_title, r.card_name)

end DbHelpers

/-! ## Parsed-page model for the level extractors

The extractors consume the result of DOM queries (`selectolax` CSS
selectors).  The model starts from those query results: a table row is the
list of its `td.MuiTableCell-root` cells; a cell carries its normalizable
text content, the `href` attributes of its `a[href]` descendants in
document order, and its `value` attribute (`""` when absent, matching
`attributes.get("value", "")`).  `css_first("td")` on a row is the head of
the cell list (in these Material-UI tables every `td` carries the
`MuiTableCell-root` class). -/

structure Cell where
  text : String
  hrefs : List String
  value : String
  deriving DecidableEq, Repr

/-- The cells of one `tbody tr.MuiTableRow-root` row. -/
abbrev HRow := List Cell

/-- `BASE_URL` shared by all scraper modules. -/
def BASE_URL : String := "https://my.taggrading.com"

/-- The href filter used by every extractor: non-empty and neither a
fragment nor a `javascript:` pseudo-link. -/
def validHref (h : String) : Bool :=
  h ≠ "" && !Py.pyStarts h "#" && !Py.pyStarts h "javascript:"

/-- `urllib.parse.urljoin(BASE_URL, href)` specialised to the scraper's
base (scheme and host only, empty path): absolute http(s) links pass
through, scheme-relative links get `https:`, rooted / query / fragment
references append to the base, and any other relative reference resolves
against the root path. -/
def urljoin (base href : String) : String :=
  if Py.pyStarts href "http://" || Py.pyStarts href "https://" then href
  else if Py.pyStarts href "//" then "https:" ++ href
  else if Py.pyStarts href "/" || Py.pyStarts href "?" || Py.pyStarts href "#" then base ++ href
  else base ++ "/" ++ href

/-- `text.replace(",", "").replace("-", "")`, the string whose
`isdigit()` decides the numeric branch of metric extraction. -/
def dropCommaDash (s : String) : String :=
  Py.replaceChar (Py.replaceChar s ',' "") '-' ""

/-- `text.replace(",", "").replace("-", "0")`, the string actually parsed
by `int(…)` on the numeric branch. -/
def commaDashZero (s : String) : String :=
  Py.replaceChar (Py.replaceChar s ',' "") '-' "0"

/-- One record appended to an extractor's `totals` list; levels that do
not emit a field (e.g. `card_name` above card scope) carry `none`. -/
structure TotalsOut where
  scope : String
  sport : String
  year : Option String
  set_title : Option String
  card_name : Option String
  metrics : Metrics
  deriving DecidableEq, Repr

/-- First-seen-order de-duplication used by `extract_set_urls_from_cell`
and `extract_card_urls_from_cell`. -/
def dedupAux (seen : List String) : List String → List String
  | [] => []
  | u :: us => if seen.contains u then dedupAux seen us else u :: dedupAux (u :: seen) us

/-- The shared metric-cell loop: walk the metric cells with their index,
parse integer cells (commas stripped, dashes zeroed) and keep other
non-`"-"` texts as strings, naming the metric with `numKey`/`strKey`. -/
def metricsLoop (numKey strKey : Nat → String) : Nat → Metrics → List Cell → Metrics
  | _, m, [] => m
  | i, m, c :: cs =>
    let text := Py.normalize_text c.text
    let m2 :=
      if text ≠ "" && Py.pyIsDigit (dropCommaDash text) then
        Py.dictSet m (numKey i) (MetricVal.int (Py.parseNatDigits (commaDashZero text)))
      else if text ≠ "" && text ≠ "-" then
        Py.dictSet m (strKey i) (MetricVal.str text)
      else m
    metricsLoop numKey strKey (i + 1) m2 cs

/-! ### Years index extractor (`sport_years_scraper.py`) -/

namespace SportYears

/-- The fixed metric names of the years-index table. -/
def metric_names : List String := ["num_sets", "total_items", "total_graded"]

/-- Metric key for column `i`: a known name when available, else
`metric_i` (same rule on both the numeric and the string branch). -/
def yearsMetricKey (i : Nat) : String :=
  match metric_names.get? i with
  | some n => n
  | none => "metric_" ++ toString i

/-- `extract_metrics_from_row` (sport_years_scraper.py lines 49-82):
skip the title cell, require at least two cells, then run the metric
loop with the fixed names. -/
def extract_metrics_from_row (cells : HRow) : Metrics :=
  if cells.length < 2 then []
  else metricsLoop yearsMetricKey yearsMetricKey 0 [] (cells.drop 1)

/-- One entry of the extractor's `years` list. -/
structure YearEntry where
  sport : String
  year : String
  year_url : String
  row_index : Nat
  deriving DecidableEq, Repr

/-- Result of `extract_years_index`. -/
structure YearsResult where
  years : List YearEntry
  totals : List TotalsOut
  deriving DecidableEq, Repr

/-- `^\d{4}$`: exactly four ASCII digits. -/
def isYear4 (s : String) : Bool :=
  s.data.length = 4 && s.data.all Char.isDigit

/-- The row loop of `extract_years_index` (lines 122-175), carrying
`row_index` from `enumerate(rows)`: rows without a first cell are
skipped; a TOTALS-titled row contributes a sport-scope rollup; non-year
titles are skipped; otherwise the first valid link gives the year URL
(rows without one are skipped with a warning). -/
def extract_years_aux (sport : String) : Nat → List HRow → List YearEntry × List TotalsOut
  | _, [] => ([], [])
  | i, row :: rest =>
    let (ys, ts) := extract_years_aux sport (i + 1) rest
    match row.head? with
    | none => (ys, ts)
    | some title_cell =>
      let title_text := Py.normalize_text title_cell.text
      if Py.pyUpper title_text = "TOTALS" then
        (ys, ⟨"sport", sport, none, none, none, extract_metrics_from_row row⟩ :: ts)
      else if !isYear4 title_text then (ys, ts)
      else
        match title_cell.hrefs.find? validHref with
        | none => (ys, ts)
        | some href => (⟨sport, title_text, urljoin BASE_URL href, i⟩ :: ys, ts)

/-- `extract_years_index(html, sport)` on the parsed rows. -/
def extract_years_index (rows : List HRow) (sport : String) : YearsResult :=
  let (ys, ts) := extract_years_aux sport 0 rows
  ⟨ys, ts⟩

end SportYears

/-! ### Sets extractor (`enhanced_sets_scraper.py`) -/

namespace SetsScraper

/-- The header-derived grade names: for every header row with more than
one `th`, the normalized non-empty texts of the cells after the first,
excluding the generic names in `skip`, accumulated across header rows.
(In the source these header rows are `row.parent.css('thead tr')`; the
model takes that query's result as the page's `headerRows`.) -/
def gradeNames (skip : List String) (headerRows : List (List Cell)) : List String :=
  headerRows.foldl
    (fun acc hr =>
      if hr.length > 1 then
        acc ++ (hr.drop 1).foldl
          (fun a c =>
            let t := Py.normalize_text c.text
            if t ≠ "" && !skip.contains t then a ++ [t] else a) []
      else acc) []

/-- Metric key on the numeric branch: a header-derived grade name when
one exists for this index, else `total` for the last metric cell and
`grade_i` otherwise. -/
def gradeKeyNum (names : List String) (total i : Nat) : String :=
  match names.get? i with
  | some n => if n ≠ "" then "grade_" ++ n else
      if i = total - 1 then "total" else "grade_" ++ toString i
  | none => if i = total - 1 then "total" else "grade_" ++ toString i

/-- Metric key on the string branch (no `total` special case). -/
def gradeKeyStr (names : List String) (i : Nat) : String :=
  match names.get? i with
  | some n => if n ≠ "" then "grade_" ++ n else "grade_" ++ toString i
  | none => "grade_" ++ toString i

/-- `extract_metrics_from_row` (enhanced_sets_scraper.py lines 47-99):
skip the title cell, require at least two cells, then the metric loop
with header-derived names (skipping the generic `Grade`). -/
def extract_metrics_from_row (headerRows : List (List Cell)) (cells : HRow) : Metrics :=
  if cells.length < 2 then []
  else
    let names := gradeNames ["Grade"] headerRows
    let mcells := cells.drop 1
    metricsLoop (gradeKeyNum names mcells.length) (gradeKeyStr names) 0 [] mcells

/-- `extract_set_urls_from_cell` (lines 102-123): valid hrefs resolved
against the base, de-duplicated preserving first-seen order. -/
def extract_set_urls_from_cell (title_cell : Cell) : List String :=
  dedupAux [] ((title_cell.hrefs.filter validHref).map (urljoin BASE_URL))

/-- One entry of the extractor's `sets` list. -/
structure SetEntry where
  sport : String
  year : String
  year_url : String
  set_title : String
  set_urls : List String
  set_page_url : Option String
  metrics : Metrics
  deriving DecidableEq, Repr

/-- Result of `extract_sets_from_year_page`. -/
structure SetsResult where
  sets : List SetEntry
  totals : List TotalsOut
  deriving DecidableEq, Repr

/-- The row loop of `extract_sets_from_year_page` (lines 161-217): rows
without a first cell or with an empty normalized title are skipped; a
TOTALS-titled row contributes a year-scope rollup; otherwise the child
carries the title-cell links (first one as the set page URL) and the
row's metrics. -/
def extract_sets_aux (headerRows : List (List Cell)) (sport year year_url : String) :
    List HRow → List SetEntry × List TotalsOut
  | [] => ([], [])
  | row :: rest =>
    let (ss, ts) := extract_sets_aux headerRows sport year year_url rest
    match row.head? with
    | none => (ss, ts)
    | some title_cell =>
      let set_title := Py.normalize_text title_cell.text
      if set_title = "" then (ss, ts)
      else if Py.pyUpper set_title = "TOTALS" then
        (ss, ⟨"year", sport, some year, none, none, extract_metrics_from_row headerRows row⟩ :: ts)
      else
        let set_urls := extract_set_urls_from_cell title_cell
        (⟨sport, year, year_url, set_title, set_urls, set_urls.head?,
          extract_metrics_from_row headerRows row⟩ :: ss, ts)

/-- `extract_sets_from_year_page(html, sport, year, year_url)` on the
parsed rows and the header rows the per-row parent query yields. -/
def extract_sets_from_year_page (headerRows : List (List Cell)) (rows : List HRow)
    (sport year year_url : String) : SetsResult :=
  let (ss, ts) := extract_sets_aux headerRows sport year year_url rows
  ⟨ss, ts⟩

end SetsScraper

/-! ### Cards extractor (`cards_scraper.py`) -/

namespace CardsScraper

/-- `extract_metrics_from_row` (cards_scraper.py lines 50-106): skip the
card-number and player cells, require at least three cells, then the
metric loop with header-derived names (skipping `Card`, `Player`,
`Grade`). -/
def extract_metrics_from_row (headerRows : List (List Cell)) (cells : HRow) : Metrics :=
  if cells.length < 3 then []
  else
    let names := SetsScraper.gradeNames ["Card", "Player", "Grade"] headerRows
    let mcells := cells.drop 2
    metricsLoop (SetsScraper.gradeKeyNum names mcells.length) (SetsScraper.gradeKeyStr names)
      0 [] mcells

/-- One entry of the extractor's `cards` list. -/
structure CardEntry where
  sport : String
  year : String
  set_title : String
  set_url : String
  card_name : String
  card_urls : List String
  metrics : Metrics
  deriving DecidableEq, Repr

/-- Result of `extract_cards_from_set_page`. -/
structure CardsResult where
  cards : List CardEntry
  totals : List TotalsOut
  deriving DecidableEq, Repr

/-- The row loop of `extract_cards_from_set_page` (lines 177-229): rows
with fewer than two cells are skipped; `cells[0]` is the card number and
`cells[1]` the player/title cell; rows whose normalized card name **or**
card number is empty are skipped — this test runs *before* the TOTALS
check; a TOTALS-named row contributes a set-scope rollup; otherwise the
child carries the title-cell links and the row's metrics. -/
def extract_cards_aux (headerRows : List (List Cell)) (sport year set_title set_url : String) :
    List HRow → List CardEntry × List TotalsOut
  | [] => ([], [])
  | row :: rest =>
    let (cs, ts) := extract_cards_aux headerRows sport year set_title set_url rest
    match row with
    | c0 :: c1 :: _ =>
      let card_number := Py.normalize_text c0.text
      let card_name := Py.normalize_text c1.text
      if card_name = "" ∨ card_number = "" then (cs, ts)
      else if Py.pyUpper card_name = "TOTALS" then
        (cs, ⟨"set", sport, some year, some set_title, none,
              extract_metrics_from_row headerRows row⟩ :: ts)
      else
        (⟨sport, year, set_title, set_url, card_name,
          SetsScraper.extract_set_urls_from_cell c1,
          extract_metrics_from_row headerRows row⟩ :: cs, ts)
    | _ => (cs, ts)

/-- `extract_cards_from_set_page(html, sport, year, set_title, set_url)`
on the parsed rows (the URL extraction from the title cell is literally
the same filter/resolve/de-duplicate loop as the sets scraper's). -/
def extract_cards_from_set_page (headerRows : List (List Cell)) (rows : List HRow)
    (sport year set_title set_url : String) : CardsResult :=
  let (cs, ts) := extract_cards_aux headerRows sport year set_title set_url rows
  ⟨cs, ts⟩

end CardsScraper

/-! ### Grade-row extractor (`card_grade_rows_scraper.py`) -/

namespace GradeRowsScraper

/-- A `datetime` value. -/
structure PyDateTime where
  year : Nat
  month : Nat
  day : Nat
  hour : Nat
  minute : Nat
  second : Nat
  microsecond : Nat
  deriving DecidableEq, Repr

/-- A value stored in a grade-row dict: a string, `None`, or a parsed
`datetime`. -/
inductive PyVal : Type
  | str (s : String)
  | noneV
  | date (d : PyDateTime)
  deriving DecidableEq, Repr

/-- Python truthiness of such a value. -/
def pyTruthy : PyVal → Bool
  | .str s => s ≠ ""
  | .noneV => false
  | .date _ => true

/-- Truthiness of `row_data.get(k)` — a missing key is falsy. -/
def pyTruthyOpt : Option PyVal → Bool
  | none => false
  | some v => pyTruthy v

def isLeap (y : Nat) : Bool :=
  y % 4 = 0 && (y % 100 ≠ 0 || y % 400 = 0)

def daysInMonth (y m : Nat) : Nat :=
  if m = 2 then (if isLeap y then 29 else 28)
  else if m = 4 || m = 6 || m = 9 || m = 11 then 30
  else 31

/-- `datetime` constructor validity: year 1-9999, real calendar day. -/
def validDate (y m d : Nat) : Bool :=
  1 ≤ y && y ≤ 9999 && 1 ≤ m && m ≤ 12 && 1 ≤ d && d ≤ daysInMonth y m

def digit2 (a b : Char) : Option Nat :=
  if a.isDigit && b.isDigit then some ((a.toNat - 48) * 10 + (b.toNat - 48)) else none

def digit4 (a b c d : Char) : Option Nat :=
  if a.isDigit && b.isDigit && c.isDigit && d.isDigit then
    some ((((a.toNat - 48) * 10 + (b.toNat - 48)) * 10 + (c.toNat - 48)) * 10 + (d.toNat - 48))
  else none

/-- `datetime.fromisoformat` on a pure `YYYY-MM-DD` date string (the only
shape `parse_date_to_iso` builds). -/
def fromisoformatDate (s : String) : Option PyDateTime :=
  match s.data with
  | [y1, y2, y3, y4, '-', m1, m2, '-', d1, d2] =>
    match digit4 y1 y2 y3 y4, digit2 m1 m2, digit2 d1 d2 with
    | some y, some m, some d =>
      if validDate y m d then some ⟨y, m, d, 0, 0, 0, 0⟩ else none
    | _, _, _ => none
  | _ => none

/-- The time-of-day tail accepted by `datetime.fromisoformat`:
`HH:MM`, `HH:MM:SS`, or `HH:MM:SS.fff`/`.ffffff` (3 or 6 fraction
digits), with range-checked fields. -/
def parseIsoTime (l : List Char) : Option (Nat × Nat × Nat × Nat) :=
  match l with
  | [h1, h2, ':', m1, m2] =>
    match digit2 h1 h2, digit2 m1 m2 with
    | some h, some m => if h < 24 && m < 60 then some (h, m, 0, 0) else none
    | _, _ => none
  | [h1, h2, ':', m1, m2, ':', s1, s2] =>
    match digit2 h1 h2, digit2 m1 m2, digit2 s1 s2 with
    | some h, some m, some s => if h < 24 && m < 60 && s < 60 then some (h, m, s, 0) else none
    | _, _, _ => none
  | h1 :: h2 :: ':' :: m1 :: m2 :: ':' :: s1 :: s2 :: '.' :: frac =>
    match digit2 h1 h2, digit2 m1 m2, digit2 s1 s2 with
    | some h, some m, some s =>
      if h < 24 && m < 60 && s < 60 && frac.all Char.isDigit &&
          (frac.length = 3 || frac.length = 6) then
        let f := frac.foldl (fun n c => n * 10 + (c.toNat - 48)) 0
        some (h, m, s, if frac.length = 3 then f * 1000 else f)
      else none
    | _, _, _ => none
  | _ => none

/-- `datetime.fromisoformat` on a full ISO string `YYYY-MM-DD` optionally
followed by a separator character and a time of day (the shape of the
page's `value` attributes once a trailing `Z` is stripped). -/
def fromisoformatFull (s : String) : Option PyDateTime :=
  match s.data with
  | y1 :: y2 :: y3 :: y4 :: '-' :: m1 :: m2 :: '-' :: d1 :: d2 :: rest =>
    match digit4 y1 y2 y3 y4, digit2 m1 m2, digit2 d1 d2 with
    | some y, some m, some d =>
      if !validDate y m d then none
      else
        match rest with
        | [] => some ⟨y, m, d, 0, 0, 0, 0⟩
        | _ :: timePart =>
          match parseIsoTime timePart with
          | some (h, mi, se, us) => some ⟨y, m, d, h, mi, se, us⟩
          | none => none
    | _, _, _ => none
  | _ => none

/-- Zero-pad a number to `w` digits (`strftime` fields, `%Y`). -/
def padNum (w n : Nat) : String :=
  let s := toString n
  if s.length ≥ w then s else ⟨List.replicate (w - s.length) '0'⟩ ++ s

/-- `dt.strftime("%m-%d-%Y")`. -/
def strftimeMDY (d : PyDateTime) : String :=
  padNum 2 d.month ++ "-" ++ padNum 2 d.day ++ "-" ++ padNum 4 d.year

/-- `\d{1,2}` followed by the literal separator: greedily two digits when
the separator follows them, else one digit followed by the separator.
Returns the matched digits and the characters after the separator. -/
def matchD12Sep (sep : Char) : List Char → Option (String × List Char)
  | c1 :: c2 :: c3 :: rest =>
    if c1.isDigit then
      if c2.isDigit && c3 = sep then some (⟨[c1, c2]⟩, rest)
      else if c2 = sep then some (⟨[c1]⟩, c3 :: rest)
      else none
    else none
  | [c1, c2] => if c1.isDigit && c2 = sep then some (⟨[c1]⟩, []) else none
  | _ => none

/-- Trailing greedy `\d{1,2}` with no anchor after it. -/
def matchD12End : List Char → Option String
  | c1 :: c2 :: _ => if c1.isDigit then some (if c2.isDigit then ⟨[c1, c2]⟩ else ⟨[c1]⟩) else none
  | [c1] => if c1.isDigit then some ⟨[c1]⟩ else none
  | [] => none

/-- `\d{4}`. -/
def matchD4 : List Char → Option (String × List Char)
  | a :: b :: c :: d :: rest =>
    if a.isDigit && b.isDigit && c.isDigit && d.isDigit then some (⟨[a, b, c, d]⟩, rest)
    else none
  | _ => none

/-- `re.match(r"(\d{1,2})SEP(\d{1,2})SEP(\d{4})", ·)`: anchored at the
start, free at the end. -/
def matchMDY (sep : Char) (l : List Char) : Option (String × String × String) :=
  match matchD12Sep sep l with
  | none => none
  | some (g1, r1) =>
    match matchD12Sep sep r1 with
    | none => none
    | some (g2, r2) =>
      match matchD4 r2 with
      | none => none
      | some (g3, _) => some (g1, g2, g3)

/-- `re.match(r"(\d{4})-(\d{1,2})-(\d{1,2})", ·)`. -/
def matchYMD (l : List Char) : Option (String × String × String) :=
  match matchD4 l with
  | none => none
  | some (g1, r1) =>
    match r1 with
    | '-' :: r2 =>
      match matchD12Sep '-' r2 with
      | none => none
      | some (g2, r3) =>
        match matchD12End r3 with
        | none => none
        | some g3 => some (g1, g2, g3)
    | _ => none

/-- `parse_date_to_iso` (card_grade_rows_scraper.py lines 49-89): try
MM-DD-YYYY, MM/DD/YYYY, then YYYY-MM-DD; on a structural match build the
zero-filled ISO date and validate it with `datetime.fromisoformat` — a
`ValueError` falls through to the next pattern.  Always returns the full
normalized text as the raw value. -/
def parse_date_to_iso (date_text : String) : String × Option PyDateTime :=
  if date_text = "" then (date_text, none)
  else
    let raw := Py.normalize_text date_text
    let tryPat := fun (g : Option (String × String × String)) (mk : String × String × String → String) =>
      match g with
      | some gs => fromisoformatDate (mk gs)
      | none => none
    let p1 := tryPat (matchMDY '-' raw.data)
      (fun gs => gs.2.2 ++ "-" ++ Py.zfill2 gs.1 ++ "-" ++ Py.zfill2 gs.2.1)
    match p1 with
    | some dt => (raw, some dt)
    | none =>
      let p2 := tryPat (matchMDY '/' raw.data)
        (fun gs => gs.2.2 ++ "-" ++ Py.zfill2 gs.1 ++ "-" ++ Py.zfill2 gs.2.1)
      match p2 with
      | some dt => (raw, some dt)
      | none =>
        let p3 := tryPat (matchYMD raw.data)
          (fun gs => gs.1 ++ "-" ++ Py.zfill2 gs.2.1 ++ "-" ++ Py.zfill2 gs.2.2)
        match p3 with
        | some dt => (raw, some dt)
        | none => (raw, none)

/-- `extract_report_url_from_cell` (lines 92-106): first anchor's href,
when valid, resolved to an absolute URL; kept only when it starts with
`http`. -/
def extract_report_url_from_cell (cell : Cell) : Option String :=
  match cell.hrefs.head? with
  | none => none
  | some href =>
    if validHref href then
      let normalized_url := urljoin BASE_URL href
      if Py.pyStarts normalized_url "http" then some normalized_url else none
    else none

/-- The header-scanning loop of `map_columns_by_headers` (lines 109-142):
each `th`'s normalized lower-cased text is tested against the keyword
chain; matching headers bind a field name to the column index. -/
def mapColsAux : Nat → Py.PyDict Nat → List Cell → Py.PyDict Nat
  | _, m, [] => m
  | i, m, h :: hs =>
    let ht := Py.pyLower (Py.normalize_text h.text)
    let m2 :=
      if Py.pyIn "rank" ht && !Py.pyIn "grade" ht && !Py.pyIn "by" ht then
        Py.dictSet m "rank" i
      else if Py.pyIn "tag grade" ht then Py.dictSet m "tag_grade" i
      else if Py.pyIn "view report" ht || Py.pyIn "report" ht then Py.dictSet m "report_url" i
      else if Py.pyIn "rank by grade" ht then Py.dictSet m "rank_by_grade" i
      else if Py.pyIn "chronology" ht && !Py.pyIn "grade" ht then Py.dictSet m "chronology" i
      else if Py.pyIn "chron by grade" ht then Py.dictSet m "chron_by_grade" i
      else if Py.pyIn "completed" ht then Py.dictSet m "completed_date" i
      else if Py.pyIn "cert number" ht then Py.dictSet m "cert_number" i
      else m
    mapColsAux (i + 1) m2 hs

/-- `map_columns_by_headers(header_row)`. -/
def map_columns_by_headers (headers : List Cell) : Py.PyDict Nat :=
  mapColsAux 0 [] headers

/-- One candidate table of the card page: its `thead tr` header rows and
its `tbody tr.MuiTableRow-root` data rows. -/
structure GTable where
  headerRows : List (List Cell)
  dataRows : List HRow
  deriving DecidableEq, Repr

/-- The header-row scan inside the table-selection loop: the first header
row whose column map has at least four entries wins. -/
def findHeaderAux : List (List Cell) → Option (Py.PyDict Nat)
  | [] => none
  | hr :: hrs =>
    let m := map_columns_by_headers hr
    if m.length ≥ 4 then some m else findHeaderAux hrs

/-- The table-selection loop (lines 175-185): first table with a
qualifying header row, together with its column map. -/
def findTargetAux : List GTable → Option (GTable × Py.PyDict Nat)
  | [] => none
  | t :: ts =>
    match findHeaderAux t.headerRows with
    | some cmap => some (t, cmap)
    | none => findTargetAux ts

/-- `s[:-1]`, used to strip a trailing `Z` from a timestamp. -/
def dropLastChar (s : String) : String :=
  ⟨s.data.dropLast⟩

/-- The `completed_date` handling (lines 219-250): an ISO `value`
attribute (containing `T`, trailing `Z` stripped) is parsed with
`fromisoformat`; on success the raw field is its `%m-%d-%Y` rendering and
the iso field the datetime; on failure — and when there is no ISO value
attribute — both fields come from `parse_date_to_iso` of the display
text. -/
def completedDateFields (cell : Cell) (rd : Py.PyDict PyVal) : Py.PyDict PyVal :=
  let fallback :=
    let p := parse_date_to_iso (Py.normalize_text cell.text)
    Py.dictSet (Py.dictSet rd "completed_date_raw" (.str p.1)) "completed_date_iso"
      (match p.2 with | some dt => .date dt | none => .noneV)
  if cell.value ≠ "" && Py.pyIn "T" cell.value then
    let iso_timestamp := if Py.pyEnds cell.value "Z" then dropLastChar cell.value else cell.value
    match fromisoformatFull iso_timestamp with
    | some dt =>
      Py.dictSet (Py.dictSet rd "completed_date_raw" (.str (strftimeMDY dt)))
        "completed_date_iso" (.date dt)
    | none => fallback
  else fallback

/-- The per-field extraction (lines 211-265): report URLs and completed
dates have special handling, chronology fields always use display text,
and every other field prefers a non-`"0"` `value` attribute over the
display text. -/
def processField (cells : HRow) (rd : Py.PyDict PyVal) (field : String) (col : Nat) :
    Py.PyDict PyVal :=
  match cells.get? col with
  | none => rd
  | some cell =>
    if field = "report_url" then
      Py.dictSet rd "report_url"
        (match extract_report_url_from_cell cell with
         | some u => .str u
         | none => .noneV)
    else if field = "completed_date" then completedDateFields cell rd
    else if field = "chronology" || field = "chron_by_grade" then
      Py.dictSet rd field (.str (Py.normalize_text cell.text))
    else
      if cell.value ≠ "" && cell.value ≠ "0" then Py.dictSet rd field (.str cell.value)
      else Py.dictSet rd field (.str (Py.normalize_text cell.text))

/-- `max(column_map.values())` (the map always has at least four
entries when used). -/
def maxVals (m : Py.PyDict Nat) : Nat :=
  m.foldl (fun a p => max a p.2) 0

/-- The base `row_data` dict (lines 202-208). -/
def baseRowData (sport year set_title card_name card_url : String) : Py.PyDict PyVal :=
  [("sport", .str sport), ("year", .str year), ("set_title", .str set_title),
   ("card_name", .str card_name), ("card_url", .str card_url)]

/-- The final report-URL validation (lines 278-283): a truthy
`report_url` not starting with `http` is nulled (unreachable given the
extractor above, kept for fidelity). -/
def validateReportUrl (rd : Py.PyDict PyVal) : Py.PyDict PyVal :=
  match Py.dictGet? rd "report_url" with
  | some (.str u) =>
    if u ≠ "" && !Py.pyStarts u "http" then Py.dictSet rd "report_url" .noneV else rd
  | _ => rd

/-- One data row (lines 196-285): skipped when it has fewer cells than
the largest mapped column index requires; otherwise the mapped fields are
extracted in column-map insertion order, and the row is kept only with a
truthy `cert_number` and a truthy `tag_grade`. -/
def processRow (cmap : Py.PyDict Nat) (base : Py.PyDict PyVal) (cells : HRow) :
    Option (Py.PyDict PyVal) :=
  if cells.length < maxVals cmap + 1 then none
  else
    let rd := cmap.foldl (fun acc p => processField cells acc p.1 p.2) base
    if !pyTruthyOpt (Py.dictGet? rd "cert_number") then none
    else if !pyTruthyOpt (Py.dictGet? rd "tag_grade") then none
    else some (validateReportUrl rd)

/-- `extract_grade_rows_from_card_page` (lines 145-287) over the page's
candidate tables. -/
def extract_grade_rows_from_card_page (tables : List GTable)
    (sport year set_title card_name card_url : String) : List (Py.PyDict PyVal) :=
  match findTargetAux tables with
  | none => []
  | some (t, cmap) =>
    t.dataRows.filterMap (processRow cmap (baseRowData sport year set_title card_name card_url))

end GradeRowsScraper

/-- A row whose title cell (its first cell) normalizes, case-insensitively,
to `TOTALS` — the rows the years and sets extractors route to a rollup. -/
def isTotalsTitleRow (row : HRow) : Bool :=
  match row.head? with
  | some c => Py.pyUpper (Py.normalize_text c.text) == "TOTALS"
  | none => false

/-- A row the cards extractor routes to a rollup: at least two cells, a
non-empty normalized card-number cell, and a player/title cell that
normalizes case-insensitively to `TOTALS` (the card-number condition is
the extractor's validation that runs before its TOTALS check). -/
def isTotalsCardRow (row : HRow) : Bool :=
  match row with
  | c0 :: c1 :: _ =>
    (Py.normalize_text c1.text != "") && (Py.normalize_text c0.text != "") &&
      (Py.pyUpper (Py.normalize_text c1.text) == "TOTALS")
  | _ => false

/-! ## Orchestrator grade-row step and run statistics

`multi_level_orchestrator.MultiLevelOrchestrator.scrape_card_grade_rows`
persists what the grade-row extractor emits.  `pipeline.PipelineStats` is
the run-statistics object; its `rows_skipped` counter is initialised to 0
and printed in the summary, and no statement in the repository increments
it — `add_table_operation` below is the only row-accounting mutator. -/

namespace Orchestrator

/-- `PipelineStats.__init__` (pipeline.py lines 82-99): counters and the
per-table insert/update pairs. -/
structure PipelineStats where
  pages_scraped : Nat
  rows_inserted : Nat
  rows_updated : Nat
  rows_skipped : Nat
  totals_captured : Nat
  failures : Nat
  retries : Nat
  table_stats : Py.PyDict (Nat × Nat)
  deriving DecidableEq, Repr

/-- The freshly initialised statistics object. -/
def pipelineStatsInit : PipelineStats :=
  { pages_scraped := 0, rows_inserted := 0, rows_updated := 0, rows_skipped := 0,
    totals_captured := 0, failures := 0, retries := 0,
    table_stats := [("years_index", (0, 0)), ("sets_per_year", (0, 0)),
                    ("cards_per_set", (0, 0)), ("card_grade_rows", (0, 0)),
                    ("totals_rollups", (0, 0))] }

/-- `PipelineStats.add_table_operation` (pipeline.py lines 101-110): bump
the named table's insert or update pair when both exist, then the global
inserted/updated counter.  No operation value touches `rows_skipped`. -/
def add_table_operation (s : PipelineStats) (table_name operation : String) : PipelineStats :=
  let s1 :=
    match Py.dictGet? s.table_stats table_name with
    | some (i, u) =>
      if operation = "inserts" then
        { s with table_stats := Py.dictSet s.table_stats table_name (i + 1, u) }
      else if operation = "updates" then
        { s with table_stats := Py.dictSet s.table_stats table_name (i, u + 1) }
      else s
    | none => s
  if operation = "inserts" then { s1 with rows_inserted := s1.rows_inserted + 1 }
  else if operation = "updates" then { s1 with rows_updated := s1.rows_updated + 1 }
  else s1

/-- `str(datetime)` rendering used to store a parsed completion datetime
in the modelled text column. -/
def pyDateTimeStr (d : GradeRowsScraper.PyDateTime) : String :=
  GradeRowsScraper.padNum 4 d.year ++ "-" ++ GradeRowsScraper.padNum 2 d.month ++ "-" ++
    GradeRowsScraper.padNum 2 d.day ++ " " ++ GradeRowsScraper.padNum 2 d.hour ++ ":" ++
    GradeRowsScraper.padNum 2 d.minute ++ ":" ++ GradeRowsScraper.padNum 2 d.second

/-- A required field of `row_data` (always a string there). -/
def rdStr (rd : Py.PyDict GradeRowsScraper.PyVal) (k : String) : String :=
  match Py.dictGet? rd k with
  | some (.str s) => s
  | _ => ""

/-- `row_data.get(k)` as an optional column value. -/
def rdOpt (rd : Py.PyDict GradeRowsScraper.PyVal) (k : String) : Option String :=
  match Py.dictGet? rd k with
  | some (.str s) => some s
  | some (.date d) => some (pyDateTimeStr d)
  | some .noneV => none
  | none => none

/-- `scrape_card_grade_rows` (multi_level_orchestrator.py lines 243-294)
on an already-fetched card page: extract the rows, upsert each into
`card_grade_rows` with the keyword payload drawn from `row_data`, and
return the number stored.  The run's `PipelineStats` passes through
unchanged: the function performs no statistics update, and in particular
nothing increments `rows_skipped` for the rows the extractor dropped. -/
def scrape_card_grade_rows (now : Int) (stats : PipelineStats)
    (store : List DbHelpers.CardGradeRow) (tables : List GradeRowsScraper.GTable)
    (sport year set_title card_name card_url : String) :
    PipelineStats × List DbHelpers.CardGradeRow × Nat :=
  let rows := GradeRowsScraper.extract_grade_rows_from_card_page tables
    sport year set_title card_name card_url
  let store2 := rows.foldl
    (fun st rd =>
      DbHelpers.upsert_card_grade_row now (rdStr rd "sport") (rdStr rd "year")
        (rdStr rd "set_title") (rdStr rd "card_name") (rdStr rd "card_url")
        (rdStr rd "cert_number")
        { rank := rdOpt rd "rank", tag_grade := rdOpt rd "tag_grade",
          report_url := rdOpt rd "report_url", rank_by_grade := rdOpt rd "rank_by_grade",
          chronology := rdOpt rd "chronology", chron_by_grade := rdOpt rd "chron_by_grade",
          completed_date_raw := rdOpt rd "completed_date_raw",
          completed_date_iso := rdOpt rd "completed_date_iso" } st)
    store
  (stats, store2, rows.length)

end Orchestrator

/-- The grade-table fixture of the claim's scenario: a header row mapping
rank / TAG grade / report / cert-number columns, one data row with only
three cells (no cert-number cell), and one full row whose cert number is
`X3032464` and whose TAG grade is `8.5`. -/
def gradeFixtureTable : GradeRowsScraper.GTable :=
  { headerRows := [[⟨"Rank", [], ""⟩, ⟨"TAG Grade", [], ""⟩, ⟨"View Report", [], ""⟩,
                    ⟨"Cert Number", [], ""⟩]],
    dataRows := [[⟨"2", [], ""⟩, ⟨"9", [], ""⟩, ⟨"", [], ""⟩],
                 [⟨"1", [], ""⟩, ⟨"8.5", [], ""⟩, ⟨"", ["/report/X3032464"], ""⟩,
                  ⟨"X3032464", [], ""⟩]] }

/-- The `row_data` dict the fixture's full row produces. -/
def gradeFixtureRow : Py.PyDict GradeRowsScraper.PyVal :=
  [("sport", .str "Baseball"), ("year", .str "1989"), ("set_title", .str "Donruss"),
   ("card_name", .str "Gary Carter"), ("card_url", .str "u"),
   ("rank", .str "1"), ("tag_grade", .str "8.5"),
   ("report_url", .str "https://my.taggrading.com/report/X3032464"),
   ("cert_number", .str "X3032464")]

/-- A small year-index page: one 1989 row and one `ToTals` row. -/
def demoYearRows : List HRow :=
  [[⟨"1989", ["/pop-report/Baseball/1989"], ""⟩, ⟨"5", [], ""⟩],
   [⟨" ToTals ", [], ""⟩, ⟨"7", [], ""⟩]]

/-- A small card page: one player row and one TOTALS row whose
card-number cell is non-empty. -/
def demoCardRows : List HRow :=
  [[⟨"53", [], ""⟩,
    ⟨"Gary Carter", ["/pop-report/Baseball/1989/Donruss/Gary Carter/53"], ""⟩,
    ⟨"2", [], ""⟩],
   [⟨"T", [], ""⟩, ⟨"totals", [], ""⟩, ⟨"9", [], ""⟩]]

/-- The child the years extractor finds on `demoYearRows`. -/
def demoYearEntry : SportYears.YearEntry :=
  { sport := "Baseball", year := "1989",
    year_url := "https://my.taggrading.com/pop-report/Baseball/1989", row_index := 0 }

/-- The child the cards extractor finds on `demoCardRows`. -/
def demoCardEntry : CardsScraper.CardEntry :=
  { sport := "Baseball", year := "1989", set_title := "Donruss", set_url := "su",
    card_name := "Gary Carter",
    card_urls := ["https://my.taggrading.com/pop-report/Baseball/1989/Donruss/Gary Carter/53"],
    metrics := [("total", MetricVal.int 2)] }

/-! ## Retry engine

`retry_with_backoff` in `pipeline.py` (lines 141-162) and
`UnifiedPipeline.retry_with_backoff` in `unified_pipeline.py`
(lines 202-232) run the same loop `for attempt in range(max_retries + 1)`:
call the wrapped operation; on success return; on failure, if
`attempt == max_retries` re-raise, else sleep with backoff and continue.
The unified-pipeline version additionally executes
`self.stats.retries_performed += 1` at the end of every non-final failed
attempt; the `pipeline.py` version updates no statistics.  Sleeping and
jitter do not affect the result and are not modelled. -/

namespace Retry

/-- What one run of the retry loop produces: the propagated result, the
number of times the wrapped operation was invoked, and the number of
`retries_performed` increments executed by the unified-pipeline version. -/
structure RetryOutcome (E A : Type) where
  result : Except E A
  invocations : Nat
  retriesRecorded : Nat
  deriving Repr

/-- The loop body from `attempt`, with `remaining` further attempts
allowed after the current one.  `f n` is the behaviour of the wrapped
operation on its `n`-th invocation (0-based). -/
def retryAux (f : Nat → Except E A) : Nat → Nat → RetryOutcome E A
  | attempt, 0 =>
    match f attempt with
    | .ok a => ⟨.ok a, 1, 0⟩
    | .error e => ⟨.error e, 1, 0⟩
  | attempt, remaining + 1 =>
    match f attempt with
    | .ok a => ⟨.ok a, 1, 0⟩
    | .error _ =>
      let rest := retryAux f (attempt + 1) remaining
      ⟨rest.result, rest.invocations + 1, rest.retriesRecorded + 1⟩

/-- `retry_with_backoff(func, max_retries, …)`: run the loop over
`range(max_retries + 1)` starting at attempt 0. -/
def retry_with_backoff (f : Nat → Except E A) (max_retries : Nat) : RetryOutcome E A :=
  retryAux f 0 max_retries

end Retry

/-! ## Unified pipeline sessions and dry-run (`unified_pipeline.py`) -/

namespace UnifiedP

/-- `PipelineConfig` (unified_pipeline.py lines 60-73).  `delay` is kept
as a whole number of time units. -/
structure PipelineConfig where
  concurrency : Nat := 3
  delay : Int := 1
  max_retries : Nat := 3
  retry_backoff : Int := 2
  dry_run : Bool := false
  start_from : String := "category"
  year_filter : Option (List String) := none
  set_filter : Option (List String) := none
  card_filter : Option (List String) := none
  runner_id : Option String := none
  log_level : String := "INFO"
  deriving DecidableEq, Repr

/-- A value bound to an attribute of a `UnifiedPipeline` instance. -/
inductive AttrVal : Type
  | configV (c : PipelineConfig)
  | statsV
  | sessionV
  | auditV
  | lockV
  deriving DecidableEq, Repr

/-- Exceptions the modelled fragment can raise. -/
inductive PyExc : Type
  | attributeError (name : String)
  deriving DecidableEq, Repr

/-- Python attribute lookup on a `UnifiedPipeline` instance.
`__init__` binds exactly `self.config`, `self.stats`, `self.session`,
`self.audit_logger` and `self.lock`; the class body defines only methods.
Any other name raises `AttributeError`. -/
def getattr (cfg : PipelineConfig) : String → Except PyExc AttrVal
  | "config" => .ok (.configV cfg)
  | "stats" => .ok .statsV
  | "session" => .ok .sessionV
  | "audit_logger" => .ok .auditV
  | "lock" => .ok .lockV
  | n => .error (.attributeError n)

/-- What `get_session` yields when the `with` block is entered. -/
inductive SessionYield : Type
  | noSession
  | dbSession
  deriving DecidableEq, Repr

/-- Python truthiness of an attribute value (config objects, sessions,
locks and stats objects are truthy). -/
def attrTruthy : AttrVal → Bool
  | .configV _ => true
  | _ => true

/-- The body of `UnifiedPipeline.get_session` (unified_pipeline.py lines
185-200) up to its first `yield`: it evaluates `if self.dry_run:` and
would yield `None` on the dry-run branch, else open a database session
and yield it. -/
def get_session_enter (cfg : PipelineConfig) : Except PyExc SessionYield := do
  let v ← getattr cfg "dry_run"
  if attrTruthy v then pure SessionYield.noSession else pure SessionYield.dbSession

end UnifiedP

/-! ## URL builder (`url_builder.py`) -/

namespace UrlBuilder

def isUpperAlpha (c : Char) : Bool := 'A' ≤ c && c ≤ 'Z'

def isLowerAlpha (c : Char) : Bool := 'a' ≤ c && c ≤ 'z'

/-- `s[n:]`. -/
def pyDropLen (s : String) (n : Nat) : String := ⟨s.data.drop n⟩

/-- `.strip()` on a string. -/
def pyStripStr (s : String) : String := ⟨Py.stripChars s.data⟩

/-- `COMMON_BASE_SETS` (url_builder.py lines 11-51), in insertion
order. -/
def COMMON_BASE_SETS : List (String × List String) :=
  [("Donruss", ["Donruss"]),
   ("Topps", ["Topps", "Topps Chrome", "Topps Finest", "Topps Now", "Topps Total Football"]),
   ("Panini", ["Panini", "Panini Prizm", "Panini Select", "Panini Instant"]),
   ("Upper Deck", ["Upper Deck"]),
   ("Fleer", ["Fleer"]),
   ("Score", ["Score"]),
   ("Stadium Club", ["Stadium Club"]),
   ("Bowman", ["Bowman", "Bowman Chrome"]),
   ("Leaf", ["Leaf"]),
   ("Playoff", ["Playoff"]),
   ("Skybox", ["Skybox"]),
   ("Pacific", ["Pacific"]),
   ("Collector\x27s Edge", ["Collector\x27s Edge"]),
   ("Pinnacle", ["Pinnacle"]),
   ("Studio", ["Studio"]),
   ("Flair", ["Flair"]),
   ("SP", ["SP"]),
   ("Ultra", ["Ultra"]),
   ("Collector\x27s Choice", ["Collector\x27s Choice"]),
   ("Classic", ["Classic"]),
   ("TSC", ["TSC"]),
   ("Parkside", ["Parkside"]),
   ("Wild Card", ["Wild Card"]),
   ("Futera", ["Futera"]),
   ("NSCC", ["NSCC"]),
   ("Platinum", ["Platinum"]),
   ("Pristine", ["Pristine"]),
   ("Deco", ["Deco"]),
   ("Showtime", ["Showtime"]),
   ("Knockout", ["Knockout"]),
   ("Living", ["Living"]),
   ("Merlin", ["Merlin", "Merlin Chrome", "Merlin Heritage"]),
   ("Impact", ["Impact"]),
   ("Jade Edition", ["Jade Edition"]),
   ("Gold", ["Gold"]),
   ("Focus", ["Focus"]),
   ("FuGenZ", ["FuGenZ"]),
   ("Match Attax", ["Match Attax"]),
   ("Adrenalyn XL", ["Adrenalyn XL"])]

/-- The inner loop of `find_base_set`'s first phase: the first variation
the set name starts with wins; the remainder, stripped, is the variation
(or `None` when empty). -/
def findVariationMatch (set_name : String) : List String → Option (String × Option String)
  | [] => none
  | v :: vs =>
    if Py.pyStarts set_name v then
      let remaining := pyStripStr (pyDropLen set_name v.length)
      if remaining ≠ "" then some (v, some remaining) else some (v, none)
    else findVariationMatch set_name vs

/-- The outer loop over `COMMON_BASE_SETS.items()` in insertion order. -/
def findCommonMatch (set_name : String) : List (String × List String) → Option (String × Option String)
  | [] => none
  | g :: rest =>
    match findVariationMatch set_name g.2 with
    | some r => some r
    | none => findCommonMatch set_name rest

/-- `re.match(r"^([A-Z][a-z]+)([A-Z][a-zA-Z]*.*)$", ·)`: an uppercase
letter, a non-empty greedy lowercase run, then an uppercase letter
starting the second group, which extends to the end of the string (no
backtracking is possible: a shorter lowercase run would leave a lowercase
letter where the second group needs an uppercase one). -/
def camelCaseMatch (l : List Char) : Option (String × String) :=
  match l with
  | [] => none
  | c :: rest =>
    if isUpperAlpha c then
      let lower := rest.takeWhile isLowerAlpha
      let after := rest.drop lower.length
      if lower.isEmpty then none
      else
        match after with
        | c2 :: _ => if isUpperAlpha c2 then some (⟨c :: lower⟩, ⟨after⟩) else none
        | [] => none
    else none

/-- The fallback `for i in range(1, len(set_name))` loop: split at the
first lower-to-upper boundary (ASCII case classes). -/
def boundaryAux (acc : List Char) : List Char → Option (String × String)
  | prev :: cur :: rest =>
    if isUpperAlpha cur && isLowerAlpha prev then some (⟨acc ++ [prev]⟩, ⟨cur :: rest⟩)
    else boundaryAux (acc ++ [prev]) (cur :: rest)
  | _ => none

/-- `set_name.split(' ', 1)` when a space is present. -/
def splitFirstSpace : List Char → List Char → Option (String × String)
  | [], _ => none
  | c :: rest, acc =>
    if c = ' ' then some (⟨acc⟩, ⟨rest⟩) else splitFirstSpace rest (acc ++ [c])

/-- `find_base_set` (url_builder.py lines 53-90): known base table,
then the camel-case regex, then the word-boundary scan, then first-space
split, else the whole name as base. -/
def find_base_set (set_name : String) : String × Option String :=
  match findCommonMatch set_name COMMON_BASE_SETS with
  | some r => r
  | none =>
    match camelCaseMatch set_name.data with
    | some bv => (bv.1, some bv.2)
    | none =>
      match boundaryAux [] set_name.data with
      | some bv => (bv.1, some bv.2)
      | none =>
        match splitFirstSpace set_name.data [] with
        | some bv => (bv.1, some bv.2)
        | none => (set_name, none)

/-- Characters `urllib.parse.quote` never encodes (its `_ALWAYS_SAFE`
set; `safe=''` adds nothing). -/
def alwaysSafe (c : Char) : Bool :=
  isUpperAlpha c || isLowerAlpha c || ('0' ≤ c && c ≤ '9') ||
    c == '_' || c == '.' || c == '-' || c == '~'

def hexDigitUpper (n : Nat) : Char :=
  if n < 10 then Char.ofNat (48 + n) else Char.ofNat (55 + n)

/-- UTF-8 bytes of one character. -/
def utf8Bytes (c : Char) : List Nat :=
  let n := c.toNat
  if n < 0x80 then [n]
  else if n < 0x800 then [0xC0 + n / 0x40, 0x80 + n % 0x40]
  else if n < 0x10000 then
    [0xE0 + n / 0x1000, 0x80 + (n / 0x40) % 0x40, 0x80 + n % 0x40]
  else
    [0xF0 + n / 0x40000, 0x80 + (n / 0x1000) % 0x40, 0x80 + (n / 0x40) % 0x40, 0x80 + n % 0x40]

def pctByte (b : Nat) : List Char :=
  ['%', hexDigitUpper (b / 16), hexDigitUpper (b % 16)]

/-- `urllib.parse.quote(s, safe='')`: percent-encode every byte outside
the unreserved set — a space becomes `%20`, not `+` (that would be
`quote_plus`). -/
def quote (s : String) : String :=
  ⟨s.data.foldr
    (fun c acc =>
      (if alwaysSafe c then [c] else (utf8Bytes c).foldr (fun b a => pctByte b ++ a) []) ++ acc)
    []⟩

/-- `str.title()` for ASCII: an alphabetic character is uppercased after
a non-cased character and lowercased after a cased one. -/
def titleAux (prevCased : Bool) : List Char → List Char
  | [] => []
  | c :: cs =>
    if c.isAlpha then
      (if prevCased then c.toLower else c.toUpper) :: titleAux true cs
    else c :: titleAux false cs

def pyTitle (s : String) : String := ⟨titleAux false s.data⟩

/-- `build_set_page_url(category_name, year, set_name, base_url)`
(url_builder.py lines 92-106); `base_url` defaults to
`https://my.taggrading.com` at the call sites. -/
def build_set_page_url (category_name year set_name base_url : String) : String :=
  let bv := find_base_set set_name
  match bv.2 with
  | some variation =>
    base_url ++ "/pop-report/" ++ pyTitle category_name ++ "/" ++ year ++ "/" ++ bv.1 ++
      "?setName=" ++ quote variation
  | none =>
    base_url ++ "/pop-report/" ++ pyTitle category_name ++ "/" ++ year ++ "/" ++ bv.1

end UrlBuilder

/-! ## MD5 (`hashlib.md5(x.encode()).hexdigest()`)

The scraper keys its caches by MD5 hex digests
(`AsyncHTTPClient._get_cache_key`, `CacheManager._get_file_path`,
`ScrapingCacheManager.get_card_details`).  This is the standard MD5 of
RFC 1321 over the string's UTF-8 bytes, on naturals reduced mod `2^32`. -/

namespace MD5

def M32 : Nat := 4294967296

def add32 (a b : Nat) : Nat := (a + b) % M32

/-- Bitwise complement within 32 bits. -/
def not32 (x : Nat) : Nat := 4294967295 - x

/-- 32-bit left rotation. -/
def rotl32 (x s : Nat) : Nat := ((x <<< s) ||| (x >>> (32 - s))) % M32

/-- The 64 sine-derived constants `K[i] = floor(abs(sin(i+1)) * 2^32)`. -/
def K : List Nat :=
  [0xd76aa478, 0xe8c7b756, 0x242070db, 0xc1bdceee,
   0xf57c0faf, 0x4787c62a, 0xa8304613, 0xfd469501,
   0x698098d8, 0x8b44f7af, 0xffff5bb1, 0x895cd7be,
   0x6b901122, 0xfd987193, 0xa679438e, 0x49b40821,
   0xf61e2562, 0xc040b340, 0x265e5a51, 0xe9b6c7aa,
   0xd62f105d, 0x02441453, 0xd8a1e681, 0xe7d3fbc8,
   0x21e1cde6, 0xc33707d6, 0xf4d50d87, 0x455a14ed,
   0xa9e3e905, 0xfcefa3f8, 0x676f02d9, 0x8d2a4c8a,
   0xfffa3942, 0x8771f681, 0x6d9d6122, 0xfde5380c,
   0xa4beea44, 0x4bdecfa9, 0xf6bb4b60, 0xbebfbc70,
   0x289b7ec6, 0xeaa127fa, 0xd4ef3085, 0x04881d05,
   0xd9d4d039, 0xe6db99e5, 0x1fa27cf8, 0xc4ac5665,
   0xf4292244, 0x432aff97, 0xab9423a7, 0xfc93a039,
   0x655b59c3, 0x8f0ccc92, 0xffeff47d, 0x85845dd1,
   0x6fa87e4f, 0xfe2ce6e0, 0xa3014314, 0x4e0811a1,
   0xf7537e82, 0xbd3af235, 0x2ad7d2bb, 0xeb86d391]

/-- The per-step rotation amounts. -/
def S : List Nat :=
  [7, 12, 17, 22, 7, 12, 17, 22, 7, 12, 17, 22, 7, 12, 17, 22,
   5, 9, 14, 20, 5, 9, 14, 20, 5, 9, 14, 20, 5, 9, 14, 20,
   4, 11, 16, 23, 4, 11, 16, 23, 4, 11, 16, 23, 4, 11, 16, 23,
   6, 10, 15, 21, 6, 10, 15, 21, 6, 10, 15, 21, 6, 10, 15, 21]

/-- 64 block bytes into 16 little-endian 32-bit words. -/
def leWords : List Nat → List Nat
  | b0 :: b1 :: b2 :: b3 :: rest =>
    (b0 + b1 * 256 + b2 * 65536 + b3 * 16777216) :: leWords rest
  | _ => []

/-- One of the 64 MD5 steps on state `(A, B, C, D)`. -/
def mdStep (M : List Nat) (q : Nat × Nat × Nat × Nat) (i : Nat) : Nat × Nat × Nat × Nat :=
  let A := q.1
  let B := q.2.1
  let C := q.2.2.1
  let D := q.2.2.2
  let fg :=
    if i < 16 then ((B &&& C) ||| (not32 B &&& D), i)
    else if i < 32 then ((D &&& B) ||| (not32 D &&& C), (5 * i + 1) % 16)
    else if i < 48 then (B ^^^ C ^^^ D, (3 * i + 5) % 16)
    else (C ^^^ (B ||| not32 D), (7 * i) % 16)
  let F := (fg.1 + A + K.getD i 0 + M.getD fg.2 0) % M32
  (D, add32 B (rotl32 F (S.getD i 0)), B, C)

/-- One 64-byte block: 64 steps, then add into the running state. -/
def mdBlock (st : Nat × Nat × Nat × Nat) (block : List Nat) : Nat × Nat × Nat × Nat :=
  let M := leWords block
  let r := (List.range 64).foldl (mdStep M) st
  (add32 st.1 r.1, add32 st.2.1 r.2.1, add32 st.2.2.1 r.2.2.1, add32 st.2.2.2 r.2.2.2)

/-- Split into 64-byte chunks (fuel-driven; called with the list's
length, always enough). -/
def chunks64Aux : Nat → List Nat → List (List Nat)
  | _, [] => []
  | 0, _ => []
  | fuel + 1, l => l.take 64 :: chunks64Aux fuel (l.drop 64)

/-- Eight little-endian bytes of the 64-bit message bit length. -/
def le8 (n : Nat) : List Nat :=
  [n % 256, n / 256 % 256, n / 65536 % 256, n / 16777216 % 256,
   n / 4294967296 % 256, n / 1099511627776 % 256,
   n / 281474976710656 % 256, n / 72057594037927936 % 256]

/-- RFC 1321 padding: `0x80`, zeros to 56 mod 64, the bit length. -/
def pad (msg : List Nat) : List Nat :=
  let z := (56 - (msg.length + 1) % 64 + 64) % 64
  msg ++ [0x80] ++ List.replicate z 0 ++ le8 ((msg.length * 8) % 18446744073709551616)

/-- MD5 over a byte list: fold the blocks from the initial state. -/
def md5Bytes (msg : List Nat) : Nat × Nat × Nat × Nat :=
  let padded := pad msg
  (chunks64Aux padded.length padded).foldl mdBlock
    (0x67452301, 0xefcdab89, 0x98badcfe, 0x10325476)

def hexLower (n : Nat) : Char :=
  if n < 10 then Char.ofNat (48 + n) else Char.ofNat (87 + n)

def hexByte (b : Nat) : List Char := [hexLower (b / 16), hexLower (b % 16)]

/-- A state word rendered as four little-endian hex bytes. -/
def wordHexLE (w : Nat) : List Char :=
  hexByte (w % 256) ++ hexByte (w / 256 % 256) ++ hexByte (w / 65536 % 256) ++
    hexByte (w / 16777216 % 256)

/-- `hashlib.md5(s.encode()).hexdigest()`. -/
def md5hex (s : String) : String :=
  let d := md5Bytes (s.data.foldr (fun c acc => UrlBuilder.utf8Bytes c ++ acc) [])
  ⟨wordHexLE d.1 ++ wordHexLE d.2.1 ++ wordHexLE d.2.2.1 ++ wordHexLE d.2.2.2⟩

end MD5

/-! ## Cache manager (`cache_manager.py`)

`CacheManager` keeps an in-memory dict `cache_key ↦ (data, timestamp)`
and a file tier `file path ↦ (data, timestamp, checksum)` (the pickled
tuple).  File reads are modelled as succeeding; time is the explicit
`now`.  The database tier's getters are placeholder implementations that
return `None`. -/

namespace CacheM

structure CacheState (α : Type) where
  memory : Py.PyDict (α × Int)
  files : Py.PyDict (α × Int × Option String)
  deriving Repr

/-- `_get_cache_key(key, category) = f"{category}:{key}"`. -/
def _get_cache_key (key category : String) : String := category ++ ":" ++ key

/-- `_get_file_path(key)`: md5 of the cache key under the cache dir. -/
def _get_file_path (cache_dir key : String) : String :=
  cache_dir ++ "/" ++ MD5.md5hex key ++ ".cache"

/-- `_is_cache_valid(timestamp, ttl)`: `time.time() - timestamp < ttl`. -/
def _is_cache_valid (now timestamp ttl : Int) : Bool := now - timestamp < ttl

/-- `ttl = ttl or self.default_ttl`: `None` and `0` fall back. -/
def effectiveTtl (ttl? : Option Int) (default_ttl : Int) : Int :=
  match ttl? with
  | none => default_ttl
  | some t => if t = 0 then default_ttl else t

/-- `_get_from_database_cache`: placeholder implementation, returns
`None`. -/
def _get_from_database_cache {α : Type} : Option α := none

/-- The file-tier half of `CacheManager.get` (lines 96-120): a valid
file entry is promoted into the memory tier and returned; an expired one
is removed from disk; then the database tier (placeholder `None`) is
consulted if enabled. -/
def cacheGetFile (st : CacheState α) (now : Int) (cache_dir cache_key : String) (ttl : Int)
    (enable_database_cache : Bool) : Option α × CacheState α :=
  let file_path := _get_file_path cache_dir cache_key
  match Py.dictGet? st.files file_path with
  | some fdata =>
    if _is_cache_valid now fdata.2.1 ttl then
      (some fdata.1, { st with memory := Py.dictSet st.memory cache_key (fdata.1, fdata.2.1) })
    else
      let st2 : CacheState α := { st with files := Py.dictDel st.files file_path }
      if enable_database_cache then (_get_from_database_cache, st2) else (none, st2)
  | none =>
    if enable_database_cache then (_get_from_database_cache, st) else (none, st)

/-- `CacheManager.get` (lines 71-120): memory tier first — a valid hit
returns immediately, an expired entry is deleted and the lookup falls
through to the file tier. -/
def cacheGet (st : CacheState α) (now : Int) (cache_dir key category : String)
    (ttl? : Option Int) (default_ttl : Int) (enable_database_cache : Bool) :
    Option α × CacheState α :=
  let cache_key := _get_cache_key key category
  let ttl := effectiveTtl ttl? default_ttl
  match Py.dictGet? st.memory cache_key with
  | some mdata =>
    if _is_cache_valid now mdata.2 ttl then (some mdata.1, st)
    else
      cacheGetFile { st with memory := Py.dictDel st.memory cache_key }
        now cache_dir cache_key ttl enable_database_cache
  | none => cacheGetFile st now cache_dir cache_key ttl enable_database_cache

/-- `CacheManager.set` (lines 122-154): write both tiers with the
current time (`checksum` is `_calculate_checksum(data)` when checksums
are enabled, else `None`; the database-tier write is a placeholder). -/
def cacheSet (st : CacheState α) (now : Int) (cache_dir key category : String) (data : α)
    (checksum : Option String) : CacheState α :=
  let cache_key := _get_cache_key key category
  { memory := Py.dictSet st.memory cache_key (data, now),
    files := Py.dictSet st.files (_get_file_path cache_dir cache_key) (data, now, checksum) }

end CacheM

/-! ## Async HTTP client (`async_client.py`) -/

namespace Client

/-- `AsyncHTTPClient._get_cache_key(url)`: md5 of the URL string. -/
def _get_cache_key (url : String) : String := MD5.md5hex url

/-- `AsyncHTTPClient._is_cache_valid` (lines 108-113). -/
def _is_cache_valid (enable_cache : Bool) (now timestamp cache_ttl : Int) : Bool :=
  enable_cache && (now - timestamp < cache_ttl)

/-- The client's response cache `self._cache : key ↦ (content,
timestamp)`. -/
abbrev RespCache := Py.PyDict (String × Int)

/-- Result of one `fetch_html` call: the returned content or raised
error, the cache afterwards, and how many network requests were made. -/
structure FetchResult where
  result : Except String String
  cache : RespCache
  networkCalls : Nat
  deriving Repr

/-- `fetch_html` (lines 129-171) with the rate-limit sleep and the HTTP
transport abstracted (`network url` is the response text or an
`aiohttp.ClientError` message): a valid cache entry under the URL's md5
key is returned without a network call; otherwise the URL is fetched,
cached on success under the same key, and a client error is re-raised as
`RuntimeError(f"Failed to fetch {url}: {e}")`. -/
def fetch_html (cache : RespCache) (now : Int) (enable_cache use_cache : Bool)
    (cache_ttl : Int) (url : String) (network : String → Except String String) : FetchResult :=
  let hit :=
    if use_cache && enable_cache then
      match Py.dictGet? cache (_get_cache_key url) with
      | some ct =>
        if _is_cache_valid enable_cache now ct.2 cache_ttl then some ct.1 else none
      | none => none
    else none
  match hit with
  | some content => ⟨.ok content, cache, 0⟩
  | none =>
    match network url with
    | .ok content =>
      if enable_cache then
        ⟨.ok content, Py.dictSet cache (_get_cache_key url) (content, now), 1⟩
      else ⟨.ok content, cache, 1⟩
    | .error e => ⟨.error ("Failed to fetch " ++ url ++ ": " ++ e), cache, 1⟩

/-- `ScrapingCacheManager.get_sets` (cache_manager.py lines 305-307): the
(key, category) pair it passes to `CacheManager.get` — composed from the
logical identity `(sport, year)` only. -/
def get_sets_key (sport year : String) : String × String :=
  ("sets_" ++ sport ++ "_" ++ year, "sets")

/-- `fetch_multiple` (lines 173-212): each URL's task runs
`fetch_html` under a semaphore and stores the HTML, or `None` when any
exception was raised, into `result_dict[url]`; the function returns
`[(url, result_dict.get(url)) for url in urls]`.  `outcome url` abstracts
one URL's fetch: `some html` on success, `none` when it raised. -/
def fetch_multiple (outcome : String → Option String) (urls : List String) :
    List (String × Option String) :=
  let result_dict := urls.foldl (fun d url => Py.dictSet d url (outcome url)) []
  urls.map (fun url => (url, (Py.dictGet? result_dict url).join))

end Client

/-! ## Rate limiter (`AsyncHTTPClient._rate_limit_request`, lines 115-127)

An event-loop model of N fetch coroutines calling
`_rate_limit_request(host)` for one host.  The body reads
`now = time.time()` and `last = self._last_request_time.get(host, 0)`;
when `now - last < rate_limit` it suspends in `asyncio.sleep` — the only
await point — and after waking (or immediately, when the interval has
elapsed, with no intervening await) writes
`self._last_request_time[host] = time.time()` and the request starts.
No lock protects the map: between one task's read and its post-sleep
write, other tasks may execute the same body. -/

namespace RateLimiter

inductive TaskState : Type
  | entered (enterTime : Nat)
  | sleeping (wake : Nat)
  | started (startTime : Nat)
  deriving DecidableEq, Repr

structure Sys where
  clock : Nat
  last : Nat
  tasks : List TaskState
  deriving DecidableEq, Repr

inductive Op : Type
  | tick
  | run (i : Nat)
  | wake (i : Nat)
  deriving DecidableEq, Repr

/-- One scheduler step.  `tick` advances the loop clock; `run i` executes
an entered task's body atomically up to its only await point (no-sleep
path: read, check, write and start in one slice); `wake i` resumes a
sleeping task at or after its wake time, writing the map and starting the
request. -/
def execOp (L : Nat) (s : Sys) : Op → Option Sys
  | .tick => some { s with clock := s.clock + 1 }
  | .run i =>
    match s.tasks.get? i with
    | some (.entered e) =>
      if e ≤ s.clock then
        let elapsed := s.clock - s.last
        if elapsed < L then
          some { s with tasks := s.tasks.set i (.sleeping (s.clock + (L - elapsed))) }
        else
          some { clock := s.clock, last := s.clock, tasks := s.tasks.set i (.started s.clock) }
      else none
    | _ => none
  | .wake i =>
    match s.tasks.get? i with
    | some (.sleeping w) =>
      if w ≤ s.clock then
        some { clock := s.clock, last := s.clock, tasks := s.tasks.set i (.started s.clock) }
      else none
    | _ => none

/-- Run a whole schedule. -/
def execTrace (L : Nat) : Sys → List Op → Option Sys
  | s, [] => some s
  | s, op :: ops =>
    match execOp L s op with
    | some s2 => execTrace L s2 ops
    | none => none

/-- A rate-limit section that runs without interleaving: at clock `c`
with last-request value `last`, the request starts at `last + L` after
the sleep when the interval has not elapsed, else immediately at `c`. -/
def nonInterleavedStart (L last c : Nat) : Nat :=
  if c - last < L then last + L else c

/-- Sequential (non-overlapping) executions: each task enters at its
entry time, runs its whole section — including the sleep — before the
next one reads the map, and leaves its start time as the new map value. -/
def seqStarts (L : Nat) : Nat → List Nat → List Nat
  | _, [] => []
  | last, e :: es =>
    let st := nonInterleavedStart L last (max e last)
    st :: seqStarts L st es

/-- The thundering-herd schedule: task 0 starts at clock 100 (no sleep),
tasks 1 and 2 enter one and two ticks later, both observe `last = 100`,
both sleep until 110, and both wake and start at 110. -/
def herdSys : Sys :=
  { clock := 100, last := 0, tasks := [.entered 100, .entered 101, .entered 102] }

def herdOps : List Op :=
  [.run 0, .tick, .run 1, .tick, .run 2,
   .tick, .tick, .tick, .tick, .tick, .tick, .tick, .tick,
   .wake 1, .wake 2]

end RateLimiter

/-- The same set page (sport Soccer, year 2024, set Donruss, variant
`Night Moves`) spelled with `quote_plus` encoding… -/
def urlPlus : String :=
  "https://my.taggrading.com/pop-report/Soccer/2024/Donruss?setName=Night+Moves"

/-- …and with `quote` (`%20`) encoding. -/
def urlPct : String :=
  "https://my.taggrading.com/pop-report/Soccer/2024/Donruss?setName=Night%20Moves"

/-! ## Theorems -/

namespace DbHelpers

/-- The boolean key match agrees with equality of natural-key tuples. -/
theorem cgrKeyMatch_iff (r : CardGradeRow) (s y st cn ce : String) :
    cgrKeyMatch r s y st cn ce = true ↔ cgrKey r = (s, y, st, cn, ce) := by
  simp [cgrKeyMatch, cgrKey, Prod.ext_iff, and_assoc]

theorem trKeyMatch_iff (r : TotalsRollup) (sc sp : String) (y st cn : Option String) :
    trKeyMatch r sc sp y st cn = true ↔ trKey r = (sc, sp, y, st, cn) := by
  simp [trKeyMatch, trKey, Prod.ext_iff, and_assoc]

/-- Unfolding `upsert_card_grade_row` on a non-empty table. -/
theorem upsert_cgr_cons (now : Int) (s y st cn cu ce : String) (kw : GradeRowKwargs)
    (r : CardGradeRow) (rs : List CardGradeRow) :
    upsert_card_grade_row now s y st cn cu ce kw (r :: rs) =
      if cgrKeyMatch r s y st cn ce then updateCardGradeRow r cu kw :: rs
      else r :: upsert_card_grade_row now s y st cn cu ce kw rs := rfl

/-- The update path leaves the natural-key fields untouched. -/
theorem updateCardGradeRow_keyMatch (r : CardGradeRow) (cu : String) (kw : GradeRowKwargs)
    (s y st cn ce : String) :
    cgrKeyMatch (updateCardGradeRow r cu kw) s y st cn ce = cgrKeyMatch r s y st cn ce := rfl

/-- Updating an already freshly written row with the same values changes
nothing. -/
theorem updateCardGradeRow_idem (r : CardGradeRow) (cu : String) (kw : GradeRowKwargs) :
    updateCardGradeRow (updateCardGradeRow r cu kw) cu kw = updateCardGradeRow r cu kw := rfl

/-- A second `upsert_card_grade_row` with the same record is a no-op,
whatever timestamps the two calls observe (the update path never touches
`discovered_at`). -/
theorem upsert_cgr_twice (now now2 : Int) (s y st cn cu ce : String) (kw : GradeRowKwargs)
    (tbl : List CardGradeRow) :
    upsert_card_grade_row now2 s y st cn cu ce kw
        (upsert_card_grade_row now s y st cn cu ce kw tbl) =
      upsert_card_grade_row now s y st cn cu ce kw tbl := by
  induction tbl with
  | nil =>
    simp [upsert_card_grade_row, cgrKeyMatch, mkCardGradeRow, updateCardGradeRow]
  | cons r rs ih =>
    by_cases h : cgrKeyMatch r s y st cn ce = true
    · rw [upsert_cgr_cons, if_pos h, upsert_cgr_cons, updateCardGradeRow_keyMatch,
        if_pos h, updateCardGradeRow_idem]
    · rw [upsert_cgr_cons, if_neg h, upsert_cgr_cons, if_neg h, ih]

/-- The keys after an upsert: unchanged on the update path, the new key
appended on the insert path. -/
theorem upsert_cgr_map_key (now : Int) (s y st cn cu ce : String) (kw : GradeRowKwargs)
    (tbl : List CardGradeRow) :
    (upsert_card_grade_row now s y st cn cu ce kw tbl).map cgrKey =
      if cgrHasKey tbl s y st cn ce then tbl.map cgrKey
      else tbl.map cgrKey ++ [(s, y, st, cn, ce)] := by
  induction tbl with
  | nil => simp [upsert_card_grade_row, cgrHasKey, mkCardGradeRow, cgrKey]
  | cons r rs ih =>
    by_cases h : cgrKeyMatch r s y st cn ce = true
    · have hk : cgrHasKey (r :: rs) s y st cn ce = true := by
        simp [cgrHasKey, List.any_cons, h]
      rw [upsert_cgr_cons, if_pos h, hk, if_pos rfl]
      simp [updateCardGradeRow, cgrKey]
    · have hk : cgrHasKey (r :: rs) s y st cn ce = cgrHasKey rs s y st cn ce := by
        simp [cgrHasKey, List.any_cons, h]
      rw [upsert_cgr_cons, if_neg h, List.map_cons, ih, hk, List.map_cons]
      by_cases h2 : cgrHasKey rs s y st cn ce = true
      · simp [h2]
      · simp [h2]

/-- Unfolding `upsert_totals_rollups` on a non-empty table. -/
theorem upsert_tr_cons (now : Int) (sc sp : String) (y st cn : Option String)
    (m : Option Metrics) (r : TotalsRollup) (rs : List TotalsRollup) :
    upsert_totals_rollups now sc sp y st cn m (r :: rs) =
      if trKeyMatch r sc sp y st cn then
        { r with metrics := m.getD [], computed_at := now } :: rs
      else r :: upsert_totals_rollups now sc sp y st cn m rs := rfl

theorem upsert_tr_twice (now : Int) (sc sp : String) (y st cn : Option String)
    (m : Option Metrics) (tbl : List TotalsRollup) :
    upsert_totals_rollups now sc sp y st cn m
        (upsert_totals_rollups now sc sp y st cn m tbl) =
      upsert_totals_rollups now sc sp y st cn m tbl := by
  induction tbl with
  | nil => simp [upsert_totals_rollups, trKeyMatch]
  | cons r rs ih =>
    by_cases h : trKeyMatch r sc sp y st cn = true
    · have h2 : trKeyMatch { r with metrics := m.getD [], computed_at := now } sc sp y st cn = true := h
      rw [upsert_tr_cons, if_pos h, upsert_tr_cons, if_pos h2]
    · rw [upsert_tr_cons, if_neg h, upsert_tr_cons, if_neg h, ih]

theorem upsert_tr_map_key (now : Int) (sc sp : String) (y st cn : Option String)
    (m : Option Metrics) (tbl : List TotalsRollup) :
    (upsert_totals_rollups now sc sp y st cn m tbl).map trKey =
      if trHasKey tbl sc sp y st cn then tbl.map trKey
      else tbl.map trKey ++ [(sc, sp, y, st, cn)] := by
  induction tbl with
  | nil => simp [upsert_totals_rollups, trHasKey, trKey]
  | cons r rs ih =>
    by_cases h : trKeyMatch r sc sp y st cn = true
    · have hk : trHasKey (r :: rs) sc sp y st cn = true := by
        simp [trHasKey, List.any_cons, h]
      rw [upsert_tr_cons, if_pos h, hk, if_pos rfl]
      simp [trKey]
    · have hk : trHasKey (r :: rs) sc sp y st cn = trHasKey rs sc sp y st cn := by
        simp [trHasKey, List.any_cons, h]
      rw [upsert_tr_cons, if_neg h, List.map_cons, ih, hk, List.map_cons]
      by_cases h2 : trHasKey rs sc sp y st cn = true
      · simp [h2]
      · simp [h2]

/-- Absence of the key says the key tuple is not among the table's keys. -/
theorem cgrHasKey_false_notMem (tbl : List CardGradeRow) (s y st cn ce : String)
    (h : cgrHasKey tbl s y st cn ce = false) :
    (s, y, st, cn, ce) ∉ tbl.map cgrKey := by
  simp [cgrHasKey, List.any_eq_true] at h
  intro hmem
  rcases List.mem_map.mp hmem with ⟨r, hr, hkey⟩
  exact absurd ((cgrKeyMatch_iff r s y st cn ce).mpr hkey) (by simpa using h r hr)

theorem trHasKey_false_notMem (tbl : List TotalsRollup) (sc sp : String)
    (y st cn : Option String) (h : trHasKey tbl sc sp y st cn = false) :
    (sc, sp, y, st, cn) ∉ tbl.map trKey := by
  simp [trHasKey, List.any_eq_true] at h
  intro hmem
  rcases List.mem_map.mp hmem with ⟨r, hr, hkey⟩
  exact absurd ((trKeyMatch_iff r sc sp y st cn).mpr hkey) (by simpa using h r hr)

/-- On a table without the key, the upsert appends exactly the one new row. -/
theorem upsert_cgr_insert (now : Int) (s y st cn cu ce : String) (kw : GradeRowKwargs)
    (tbl : List CardGradeRow) (h : cgrHasKey tbl s y st cn ce = false) :
    upsert_card_grade_row now s y st cn cu ce kw tbl =
      tbl ++ [mkCardGradeRow now s y st cn cu ce kw] := by
  induction tbl with
  | nil => rfl
  | cons r rs ih =>
    simp only [cgrHasKey, List.any_cons, Bool.or_eq_false_iff] at h
    rw [upsert_cgr_cons, if_neg (by simp [h.1]), ih h.2, List.cons_append]

theorem upsert_tr_insert (now : Int) (sc sp : String) (y st cn : Option String)
    (m : Option Metrics) (tbl : List TotalsRollup) (h : trHasKey tbl sc sp y st cn = false) :
    upsert_totals_rollups now sc sp y st cn m tbl =
      tbl ++ [{ scope := sc, sport := sp, year := y, set_title := st, card_name := cn,
                metrics := m.getD [], computed_at := now }] := by
  induction tbl with
  | nil => rfl
  | cons r rs ih =>
    simp only [trHasKey, List.any_cons, Bool.or_eq_false_iff] at h
    rw [upsert_tr_cons, if_neg (by simp [h.1]), ih h.2, List.cons_append]

end DbHelpers

open DbHelpers in
/-- C1: for both persistence tables named by the claim
(`upsert_card_grade_row` and `upsert_totals_rollups`), upserting the same
record twice leaves the store with the same rows as upserting it once; an
upsert on a new natural key appends exactly one row carrying that key; an
upsert on an existing key changes no row count and no key (update in
place); and a key-unique table stays key-unique, so no second row with the
same natural key is ever created.  (For the rollup table, whose update
path refreshes `computed_at`, both calls observe the same clock value;
the grade-row table is idempotent across arbitrary clock values.) -/
theorem C1_upsert_idempotent_key_unique :
    (∀ (now now2 : Int) (s y st cn cu ce : String) (kw : GradeRowKwargs)
        (tbl : List CardGradeRow),
        upsert_card_grade_row now2 s y st cn cu ce kw
            (upsert_card_grade_row now s y st cn cu ce kw tbl) =
          upsert_card_grade_row now s y st cn cu ce kw tbl) ∧
    (∀ (now : Int) (sc sp : String) (y st cn : Option String) (m : Option Metrics)
        (tbl : List TotalsRollup),
        upsert_totals_rollups now sc sp y st cn m
            (upsert_totals_rollups now sc sp y st cn m tbl) =
          upsert_totals_rollups now sc sp y st cn m tbl) ∧
    (∀ (now : Int) (s y st cn cu ce : String) (kw : GradeRowKwargs) (tbl : List CardGradeRow),
        cgrHasKey tbl s y st cn ce = false →
        upsert_card_grade_row now s y st cn cu ce kw tbl =
          tbl ++ [mkCardGradeRow now s y st cn cu ce kw]) ∧
    (∀ (now : Int) (s y st cn cu ce : String) (kw : GradeRowKwargs) (tbl : List CardGradeRow),
        cgrHasKey tbl s y st cn ce = true →
        (upsert_card_grade_row now s y st cn cu ce kw tbl).map cgrKey = tbl.map cgrKey) ∧
    (∀ (now : Int) (sc sp : String) (y st cn : Option String) (m : Option Metrics)
        (tbl : List TotalsRollup),
        trHasKey tbl sc sp y st cn = true →
        (upsert_totals_rollups now sc sp y st cn m tbl).map trKey = tbl.map trKey) ∧
    (∀ (now : Int) (s y st cn cu ce : String) (kw : GradeRowKwargs) (tbl : List CardGradeRow),
        (tbl.map cgrKey).Nodup →
        ((upsert_card_grade_row now s y st cn cu ce kw tbl).map cgrKey).Nodup) ∧
    (∀ (now : Int) (sc sp : String) (y st cn : Option String) (m : Option Metrics)
        (tbl : List TotalsRollup),
        (tbl.map trKey).Nodup →
        ((upsert_totals_rollups now sc sp y st cn m tbl).map trKey).Nodup) := by
  refine ⟨upsert_cgr_twice, upsert_tr_twice, upsert_cgr_insert, ?_, ?_, ?_, ?_⟩
  · intro now s y st cn cu ce kw tbl h
    rw [upsert_cgr_map_key, if_pos h]
  · intro now sc sp y st cn m tbl h
    rw [upsert_tr_map_key, if_pos h]
  · intro now s y st cn cu ce kw tbl h
    rw [upsert_cgr_map_key]
    by_cases hk : cgrHasKey tbl s y st cn ce = true
    · rw [if_pos hk]; exact h
    · rw [if_neg hk]
      have hmem := cgrHasKey_false_notMem tbl s y st cn ce (by simpa using hk)
      refine List.Nodup.append h (List.nodup_singleton _) ?_
      intro a ha hb
      simp only [List.mem_singleton] at hb
      exact hmem (hb ▸ ha)
  · intro now sc sp y st cn m tbl h
    rw [upsert_tr_map_key]
    by_cases hk : trHasKey tbl sc sp y st cn = true
    · rw [if_pos hk]; exact h
    · rw [if_neg hk]
      have hmem := trHasKey_false_notMem tbl sc sp y st cn (by simpa using hk)
      refine List.Nodup.append h (List.nodup_singleton _) ?_
      intro a ha hb
      simp only [List.mem_singleton] at hb
      exact hmem (hb ▸ ha)

open DbHelpers in
/-- Witness for C1 at concrete inputs: inserting a grade row into the
empty table, re-upserting it, and the same for a rollup row. -/
theorem C1_upsert_idempotent_key_unique_witness :
    (upsert_card_grade_row 7 "Baseball" "1989" "Donruss" "Gary Carter" "u" "X1"
        ⟨some "1", some "8.5", none, none, none, none, none, none⟩
        (upsert_card_grade_row 3 "Baseball" "1989" "Donruss" "Gary Carter" "u" "X1"
          ⟨some "1", some "8.5", none, none, none, none, none, none⟩ []) =
      upsert_card_grade_row 3 "Baseball" "1989" "Donruss" "Gary Carter" "u" "X1"
        ⟨some "1", some "8.5", none, none, none, none, none, none⟩ []) ∧
    cgrHasKey [] "Baseball" "1989" "Donruss" "Gary Carter" "X1" = false ∧
    (upsert_card_grade_row 3 "Baseball" "1989" "Donruss" "Gary Carter" "u" "X1"
        ⟨some "1", some "8.5", none, none, none, none, none, none⟩ [] =
      [mkCardGradeRow 3 "Baseball" "1989" "Donruss" "Gary Carter" "u" "X1"
        ⟨some "1", some "8.5", none, none, none, none, none, none⟩]) ∧
    (([mkCardGradeRow 3 "Baseball" "1989" "Donruss" "Gary Carter" "u" "X1"
        ⟨some "1", some "8.5", none, none, none, none, none, none⟩].map cgrKey).Nodup →
      ((upsert_card_grade_row 9 "Baseball" "1989" "Donruss" "Gary Carter" "v" "X1"
          ⟨some "2", some "9", none, none, none, none, none, none⟩
          [mkCardGradeRow 3 "Baseball" "1989" "Donruss" "Gary Carter" "u" "X1"
            ⟨some "1", some "8.5", none, none, none, none, none, none⟩]).map cgrKey).Nodup) :=
  ⟨C1_upsert_idempotent_key_unique.1 3 7 "Baseball" "1989" "Donruss" "Gary Carter" "u" "X1" _ [],
   by decide,
   C1_upsert_idempotent_key_unique.2.2.1 3 "Baseball" "1989" "Donruss" "Gary Carter" "u" "X1"
     ⟨some "1", some "8.5", none, none, none, none, none, none⟩ [] (by decide),
   C1_upsert_idempotent_key_unique.2.2.2.2.2.1 9 "Baseball" "1989" "Donruss" "Gary Carter" "v" "X1"
     ⟨some "2", some "9", none, none, none, none, none, none⟩ _⟩

namespace Retry

/-- On an operation that fails on every invocation, the loop body starting
at `attempt` with `remaining` further attempts performs `remaining + 1`
invocations, records `remaining` retries, and propagates the error of the
final attempt. -/
theorem retryAux_all_fail (errs : Nat → E) (attempt remaining : Nat) :
    retryAux (A := A) (fun n => .error (errs n)) attempt remaining =
      ⟨.error (errs (attempt + remaining)), remaining + 1, remaining⟩ := by
  induction remaining generalizing attempt with
  | zero => simp [retryAux]
  | succ r ih =>
    have h : attempt + 1 + r = attempt + (r + 1) := by omega
    simp only [retryAux, ih (attempt + 1), h]

/-- An always-failing operation under `retry_with_backoff(f, max_retries)`
is invoked `max_retries + 1` times, the error of the last invocation is
re-raised, and `max_retries` retries are recorded. -/
theorem retry_all_fail (errs : Nat → E) (max_retries : Nat) :
    retry_with_backoff (A := A) (fun n => .error (errs n)) max_retries =
      ⟨.error (errs max_retries), max_retries + 1, max_retries⟩ := by
  simpa using retryAux_all_fail errs 0 max_retries

end Retry

open Retry in
/-- C3 counterexample: with the source's default configuration
`max_retries = 3` (named `maxAttempts` by the claim), an always-failing
operation is invoked 4 times, not 3, and 3 retries are recorded, not
`3 - 1 = 2`.  The last error (of invocation index 3) is re-raised. -/
theorem C3_retry_attempt_count_counterexample :
    (retry_with_backoff (A := Unit) (fun n => .error n) 3).invocations = 4 ∧
    (retry_with_backoff (A := Unit) (fun n => .error n) 3).invocations ≠ 3 ∧
    (retry_with_backoff (A := Unit) (fun n => .error n) 3).retriesRecorded = 3 ∧
    (retry_with_backoff (A := Unit) (fun n => .error n) 3).retriesRecorded ≠ 3 - 1 ∧
    (retry_with_backoff (A := Unit) (fun n => .error n) 3).result = .error 3 := by
  refine ⟨rfl, by decide, rfl, by decide, rfl⟩

open Retry in
/-- C3 amended: for every configured `max_retries` value, an operation
that fails on every invocation is invoked exactly `max_retries + 1` times,
after which the error of the final invocation is re-raised, and the
unified pipeline's statistics record exactly `max_retries` retries — one
per non-final failed attempt, with no retry recorded for the final
attempt (`pipeline.py`'s module-level variant records none at all). -/
theorem C3_retry_attempt_count_amended (max_retries : Nat) (errs : Nat → E) :
    (retry_with_backoff (A := A) (fun n => .error (errs n)) max_retries).invocations =
        max_retries + 1 ∧
    (retry_with_backoff (A := A) (fun n => .error (errs n)) max_retries).result =
        .error (errs max_retries) ∧
    (retry_with_backoff (A := A) (fun n => .error (errs n)) max_retries).retriesRecorded =
        max_retries := by
  rw [retry_all_fail]
  exact ⟨rfl, rfl, rfl⟩

/-- C4: `UnifiedPipeline.get_session` reads `self.dry_run`, an attribute
that `__init__` never binds (the flag lives at `self.config.dry_run`), so
entering the session context raises `AttributeError` for every
configuration — in particular a dry run performs no discovery at all,
instead of reporting live-run-equal counts with zero persistence calls.
The second conjunct evaluates the failing input of the claim's scenario:
a configuration with `dry_run = True`. -/
theorem C4_dry_run_get_session_attribute_error :
    (∀ cfg : UnifiedP.PipelineConfig,
        UnifiedP.get_session_enter cfg = .error (.attributeError "dry_run")) ∧
    UnifiedP.get_session_enter { dry_run := true } =
      .error (.attributeError "dry_run") :=
  ⟨fun _ => rfl, rfl⟩

namespace SportYears

/-- The years extractor's totals are exactly one sport-scope rollup per
TOTALS-titled row, in row order, carrying that row's metric cells. -/
theorem years_aux_totals (sport : String) : ∀ (i : Nat) (rows : List HRow),
    (extract_years_aux sport i rows).2 =
      (rows.filter isTotalsTitleRow).map
        (fun row => ⟨"sport", sport, none, none, none, extract_metrics_from_row row⟩) := by
  intro i rows
  induction rows generalizing i with
  | nil => rfl
  | cons row rest ih =>
    rcases hrec : extract_years_aux sport (i + 1) rest with ⟨ys, ts⟩
    have hts : ts = (rest.filter isTotalsTitleRow).map
        (fun row => ⟨"sport", sport, none, none, none, extract_metrics_from_row row⟩) := by
      have h2 := ih (i + 1)
      rw [hrec] at h2
      exact h2
    simp only [extract_years_aux, hrec]
    cases hh : row.head? with
    | none =>
      have hpred : isTotalsTitleRow row = false := by simp [isTotalsTitleRow, hh]
      simp [hpred, hts]
    | some cell =>
      dsimp only
      by_cases ht : Py.pyUpper (Py.normalize_text cell.text) = "TOTALS"
      · have hpred : isTotalsTitleRow row = true := by simp [isTotalsTitleRow, hh, ht]
        simp [ht, hpred, hts]
      · have hpred : isTotalsTitleRow row = false := by simp [isTotalsTitleRow, hh, ht]
        rw [if_neg ht, List.filter_cons, hpred]
        simp only [Bool.false_eq_true, if_false]
        by_cases hy : (!isYear4 (Py.normalize_text cell.text)) = true
        · rw [if_pos hy]
          exact hts
        · rw [if_neg hy]
          cases hf : cell.hrefs.find? validHref with
          | none => simpa using hts
          | some href => simpa using hts

/-- Every child the years extractor emits has a normalized title (its
year string) that differs, case-insensitively, from `TOTALS`. -/
theorem years_aux_child (sport : String) : ∀ (i : Nat) (rows : List HRow)
    (y : YearEntry), y ∈ (extract_years_aux sport i rows).1 →
    Py.pyUpper y.year ≠ "TOTALS" := by
  intro i rows
  induction rows generalizing i with
  | nil =>
    intro y h
    simp [extract_years_aux] at h
  | cons row rest ih =>
    intro y hy
    rcases hrec : extract_years_aux sport (i + 1) rest with ⟨ys, ts⟩
    have ihy : ∀ y ∈ ys, Py.pyUpper y.year ≠ "TOTALS" := by
      intro y h
      exact ih (i + 1) y (by rw [hrec]; exact h)
    simp only [extract_years_aux, hrec] at hy
    cases hh : row.head? with
    | none =>
      rw [hh] at hy
      exact ihy y hy
    | some cell =>
      rw [hh] at hy
      dsimp only at hy
      by_cases ht : Py.pyUpper (Py.normalize_text cell.text) = "TOTALS"
      · rw [if_pos ht] at hy
        exact ihy y hy
      · rw [if_neg ht] at hy
        by_cases hy4 : (!isYear4 (Py.normalize_text cell.text)) = true
        · rw [if_pos hy4] at hy
          exact ihy y hy
        · rw [if_neg hy4] at hy
          cases hf : cell.hrefs.find? validHref with
          | none =>
            rw [hf] at hy
            exact ihy y hy
          | some href =>
            rw [hf] at hy
            rcases List.mem_cons.mp hy with h | h
            · subst h
              exact ht
            · exact ihy y h

end SportYears

namespace SetsScraper

/-- The sets extractor's totals are exactly one year-scope rollup per
TOTALS-titled row, in row order, carrying that row's metric cells. -/
theorem sets_aux_totals (headerRows : List (List Cell)) (sport year year_url : String) :
    ∀ rows : List HRow,
    (extract_sets_aux headerRows sport year year_url rows).2 =
      (rows.filter isTotalsTitleRow).map
        (fun row => ⟨"year", sport, some year, none, none,
          extract_metrics_from_row headerRows row⟩) := by
  intro rows
  induction rows with
  | nil => rfl
  | cons row rest ih =>
    rcases hrec : extract_sets_aux headerRows sport year year_url rest with ⟨ss, ts⟩
    have hts : ts = (rest.filter isTotalsTitleRow).map
        (fun row => ⟨"year", sport, some year, none, none,
          extract_metrics_from_row headerRows row⟩) := by
      rw [hrec] at ih
      exact ih
    simp only [extract_sets_aux, hrec]
    cases hh : row.head? with
    | none =>
      have hpred : isTotalsTitleRow row = false := by simp [isTotalsTitleRow, hh]
      simp [hpred, hts]
    | some cell =>
      dsimp only
      by_cases he : Py.normalize_text cell.text = ""
      · have hpred : isTotalsTitleRow row = false := by
          simp [isTotalsTitleRow, hh, he, Py.pyUpper]
        simp [he, hpred, hts]
      · by_cases ht : Py.pyUpper (Py.normalize_text cell.text) = "TOTALS"
        · have hpred : isTotalsTitleRow row = true := by simp [isTotalsTitleRow, hh, ht]
          simp [he, ht, hpred, hts]
        · have hpred : isTotalsTitleRow row = false := by simp [isTotalsTitleRow, hh, ht]
          rw [if_neg he, if_neg ht, List.filter_cons, hpred]
          simpa using hts

/-- Every child the sets extractor emits has a non-empty normalized title
that differs, case-insensitively, from `TOTALS`. -/
theorem sets_aux_child (headerRows : List (List Cell)) (sport year year_url : String) :
    ∀ (rows : List HRow) (s : SetEntry),
    s ∈ (extract_sets_aux headerRows sport year year_url rows).1 →
    s.set_title ≠ "" ∧ Py.pyUpper s.set_title ≠ "TOTALS" := by
  intro rows
  induction rows with
  | nil =>
    intro s h
    simp [extract_sets_aux] at h
  | cons row rest ih =>
    intro s hs
    rcases hrec : extract_sets_aux headerRows sport year year_url rest with ⟨ss, ts⟩
    have ihs : ∀ s ∈ ss, s.set_title ≠ "" ∧ Py.pyUpper s.set_title ≠ "TOTALS" := by
      intro s h
      exact ih s (by rw [hrec]; exact h)
    simp only [extract_sets_aux, hrec] at hs
    cases hh : row.head? with
    | none =>
      rw [hh] at hs
      exact ihs s hs
    | some cell =>
      rw [hh] at hs
      dsimp only at hs
      by_cases he : Py.normalize_text cell.text = ""
      · rw [if_pos he] at hs
        exact ihs s hs
      · rw [if_neg he] at hs
        by_cases ht : Py.pyUpper (Py.normalize_text cell.text) = "TOTALS"
        · rw [if_pos ht] at hs
          exact ihs s hs
        · rw [if_neg ht] at hs
          rcases List.mem_cons.mp hs with h | h
          · subst h
            exact ⟨he, ht⟩
          · exact ihs s h

end SetsScraper

namespace CardsScraper

/-- The cards extractor's totals are exactly one set-scope rollup per
TOTALS-named row **that also has a non-empty card-number cell**, in row
order, carrying that row's metric cells. -/
theorem cards_aux_totals (headerRows : List (List Cell)) (sport year set_title set_url : String) :
    ∀ rows : List HRow,
    (extract_cards_aux headerRows sport year set_title set_url rows).2 =
      (rows.filter isTotalsCardRow).map
        (fun row => ⟨"set", sport, some year, some set_title, none,
          extract_metrics_from_row headerRows row⟩) := by
  intro rows
  induction rows with
  | nil => rfl
  | cons row rest ih =>
    rcases hrec : extract_cards_aux headerRows sport year set_title set_url rest with ⟨cs, ts⟩
    have hts : ts = (rest.filter isTotalsCardRow).map
        (fun row => ⟨"set", sport, some year, some set_title, none,
          extract_metrics_from_row headerRows row⟩) := by
      rw [hrec] at ih
      exact ih
    simp only [extract_cards_aux, hrec]
    cases row with
    | nil => simpa [isTotalsCardRow] using hts
    | cons c0 row1 =>
      cases row1 with
      | nil => simpa [isTotalsCardRow] using hts
      | cons c1 crest =>
        dsimp only
        by_cases he : Py.normalize_text c1.text = "" ∨ Py.normalize_text c0.text = ""
        · have hpred : isTotalsCardRow (c0 :: c1 :: crest) = false := by
            rcases he with he | he <;> simp [isTotalsCardRow, he]
          rw [if_pos he, List.filter_cons, hpred]
          simpa using hts
        · by_cases ht : Py.pyUpper (Py.normalize_text c1.text) = "TOTALS"
          · have hpred : isTotalsCardRow (c0 :: c1 :: crest) = true := by
              push_neg at he
              simp [isTotalsCardRow, he.1, he.2, ht]
            rw [if_neg he, if_pos ht, List.filter_cons, hpred]
            simp [hts]
          · have hpred : isTotalsCardRow (c0 :: c1 :: crest) = false := by
              simp [isTotalsCardRow, ht]
            rw [if_neg he, if_neg ht, List.filter_cons, hpred]
            simpa using hts

/-- Every child the cards extractor emits has a non-empty normalized card
name that differs, case-insensitively, from `TOTALS`. -/
theorem cards_aux_child (headerRows : List (List Cell)) (sport year set_title set_url : String) :
    ∀ (rows : List HRow) (c : CardEntry),
    c ∈ (extract_cards_aux headerRows sport year set_title set_url rows).1 →
    c.card_name ≠ "" ∧ Py.pyUpper c.card_name ≠ "TOTALS" := by
  intro rows
  induction rows with
  | nil =>
    intro c h
    simp [extract_cards_aux] at h
  | cons row rest ih =>
    intro c hc
    rcases hrec : extract_cards_aux headerRows sport year set_title set_url rest with ⟨cs, ts⟩
    have ihc : ∀ c ∈ cs, c.card_name ≠ "" ∧ Py.pyUpper c.card_name ≠ "TOTALS" := by
      intro c h
      exact ih c (by rw [hrec]; exact h)
    simp only [extract_cards_aux, hrec] at hc
    cases row with
    | nil => exact ihc c hc
    | cons c0 row1 =>
      cases row1 with
      | nil => exact ihc c hc
      | cons c1 crest =>
        dsimp only at hc
        by_cases he : Py.normalize_text c1.text = "" ∨ Py.normalize_text c0.text = ""
        · rw [if_pos he] at hc
          exact ihc c hc
        · rw [if_neg he] at hc
          by_cases ht : Py.pyUpper (Py.normalize_text c1.text) = "TOTALS"
          · rw [if_pos ht] at hc
            exact ihc c hc
          · rw [if_neg ht] at hc
            rcases List.mem_cons.mp hc with h | h
            · subst h
              push_neg at he
              exact ⟨he.1, ht⟩
            · exact ihc c h

end CardsScraper

/-- C2 (amended): for the year-index and set-list extractors the claim
holds as stated — a row whose normalized title equals `TOTALS`
case-insensitively is never emitted as a child, and its metric cells
become exactly one rollup (one per such row, in row order) whose scope
names the level (`sport`, `year`); every emitted child's normalized title
differs from `TOTALS`.  For the card-list extractor the same holds with
one qualification the code forces: its empty-name/empty-number validation
runs *before* the TOTALS check, so only a TOTALS-named row that also has
a non-empty card-number cell produces the (set-scope) rollup; a
TOTALS-named row with an empty card-number cell is dropped entirely. -/
theorem C2_totals_isolation_amended :
    (∀ (sport : String) (rows : List HRow),
        (∀ y ∈ (SportYears.extract_years_index rows sport).years,
            Py.pyUpper y.year ≠ "TOTALS") ∧
        (SportYears.extract_years_index rows sport).totals =
          (rows.filter isTotalsTitleRow).map
            (fun row => ⟨"sport", sport, none, none, none,
              SportYears.extract_metrics_from_row row⟩)) ∧
    (∀ (sport year year_url : String) (headerRows : List (List Cell)) (rows : List HRow),
        (∀ s ∈ (SetsScraper.extract_sets_from_year_page headerRows rows sport year year_url).sets,
            s.set_title ≠ "" ∧ Py.pyUpper s.set_title ≠ "TOTALS") ∧
        (SetsScraper.extract_sets_from_year_page headerRows rows sport year year_url).totals =
          (rows.filter isTotalsTitleRow).map
            (fun row => ⟨"year", sport, some year, none, none,
              SetsScraper.extract_metrics_from_row headerRows row⟩)) ∧
    (∀ (sport year set_title set_url : String) (headerRows : List (List Cell)) (rows : List HRow),
        (∀ c ∈ (CardsScraper.extract_cards_from_set_page headerRows rows
                  sport year set_title set_url).cards,
            c.card_name ≠ "" ∧ Py.pyUpper c.card_name ≠ "TOTALS") ∧
        (CardsScraper.extract_cards_from_set_page headerRows rows sport year set_title set_url).totals =
          (rows.filter isTotalsCardRow).map
            (fun row => ⟨"set", sport, some year, some set_title, none,
              CardsScraper.extract_metrics_from_row headerRows row⟩)) := by
  refine ⟨?_, ?_, ?_⟩
  · intro sport rows
    rcases hrec : SportYears.extract_years_aux sport 0 rows with ⟨ys, ts⟩
    constructor
    · intro y hy
      apply SportYears.years_aux_child sport 0 rows y
      simp only [SportYears.extract_years_index, hrec] at hy
      rw [hrec]
      exact hy
    · have h := SportYears.years_aux_totals sport 0 rows
      simp only [SportYears.extract_years_index, hrec] at h ⊢
      exact h
  · intro sport year year_url headerRows rows
    rcases hrec : SetsScraper.extract_sets_aux headerRows sport year year_url rows with ⟨ss, ts⟩
    constructor
    · intro s hs
      apply SetsScraper.sets_aux_child headerRows sport year year_url rows s
      simp only [SetsScraper.extract_sets_from_year_page, hrec] at hs
      rw [hrec]
      exact hs
    · have h := SetsScraper.sets_aux_totals headerRows sport year year_url rows
      simp only [SetsScraper.extract_sets_from_year_page, hrec] at h ⊢
      exact h
  · intro sport year set_title set_url headerRows rows
    rcases hrec : CardsScraper.extract_cards_aux headerRows sport year set_title set_url rows
      with ⟨cs, ts⟩
    constructor
    · intro c hc
      apply CardsScraper.cards_aux_child headerRows sport year set_title set_url rows c
      simp only [CardsScraper.extract_cards_from_set_page, hrec] at hc
      rw [hrec]
      exact hc
    · have h := CardsScraper.cards_aux_totals headerRows sport year set_title set_url rows
      simp only [CardsScraper.extract_cards_from_set_page, hrec] at h ⊢
      exact h

/-- C2 counterexample: a card-page row whose player/title cell
normalizes to `TOTALS` but whose card-number cell is empty is dropped by
the cards extractor before its TOTALS check: it is not emitted as a child
(as the claim says) but it also produces **no** rollup, against the
claim's "exactly one TotalsRollup record". -/
theorem C2_totals_isolation_counterexample :
    Py.pyUpper (Py.normalize_text "TOTALS") = "TOTALS" ∧
    CardsScraper.extract_cards_from_set_page []
        [[⟨"", [], ""⟩, ⟨"TOTALS", [], ""⟩, ⟨"5", [], ""⟩]]
        "Baseball" "1989" "Donruss" "su" = ⟨[], []⟩ ∧
    (CardsScraper.extract_cards_from_set_page []
        [[⟨"", [], ""⟩, ⟨"TOTALS", [], ""⟩, ⟨"5", [], ""⟩]]
        "Baseball" "1989" "Donruss" "su").totals.length ≠ 1 :=
  ⟨rfl, rfl, by decide⟩

/-- Witness for C2 at concrete pages: a year page with one 1989 row and
one `ToTals` row, and a card page with one player row and one TOTALS row
with a non-empty card-number cell. -/
theorem C2_totals_isolation_amended_witness :
    demoYearEntry ∈ (SportYears.extract_years_index demoYearRows "Baseball").years ∧
    Py.pyUpper demoYearEntry.year ≠ "TOTALS" ∧
    (SportYears.extract_years_index demoYearRows "Baseball").totals =
      (demoYearRows.filter isTotalsTitleRow).map
        (fun row => ⟨"sport", "Baseball", none, none, none,
          SportYears.extract_metrics_from_row row⟩) ∧
    demoCardEntry ∈ (CardsScraper.extract_cards_from_set_page [] demoCardRows
      "Baseball" "1989" "Donruss" "su").cards ∧
    Py.pyUpper demoCardEntry.card_name ≠ "TOTALS" ∧
    (CardsScraper.extract_cards_from_set_page [] demoCardRows
        "Baseball" "1989" "Donruss" "su").totals =
      (demoCardRows.filter isTotalsCardRow).map
        (fun row => ⟨"set", "Baseball", some "1989", some "Donruss", none,
          CardsScraper.extract_metrics_from_row [] row⟩) := by
  have hyMem : demoYearEntry ∈ (SportYears.extract_years_index demoYearRows "Baseball").years := by
    rw [show (SportYears.extract_years_index demoYearRows "Baseball").years =
      [demoYearEntry] from rfl]
    exact List.mem_singleton_self _
  have hcMem : demoCardEntry ∈ (CardsScraper.extract_cards_from_set_page [] demoCardRows
      "Baseball" "1989" "Donruss" "su").cards := by
    rw [show (CardsScraper.extract_cards_from_set_page [] demoCardRows
      "Baseball" "1989" "Donruss" "su").cards = [demoCardEntry] from rfl]
    exact List.mem_singleton_self _
  refine ⟨hyMem, ?_, ?_, hcMem, ?_, ?_⟩
  · exact (C2_totals_isolation_amended.1 "Baseball" demoYearRows).1 _ hyMem
  · exact (C2_totals_isolation_amended.1 "Baseball" demoYearRows).2
  · exact ((C2_totals_isolation_amended.2.2 "Baseball" "1989" "Donruss" "su" []
      demoCardRows).1 _ hcMem).2
  · exact (C2_totals_isolation_amended.2.2 "Baseball" "1989" "Donruss" "su" [] demoCardRows).2

namespace Py

/-- Lookup on the empty dict. -/
theorem dictGet?_nil (k : String) : dictGet? ([] : PyDict β) k = none := rfl

/-- Lookup steps over one binding. -/
theorem dictGet?_cons (kh : String) (vh : β) (rest : PyDict β) (k : String) :
    dictGet? ((kh, vh) :: rest) k = if kh = k then some vh else dictGet? rest k := by
  simp only [dictGet?, List.find?]
  by_cases h : kh = k
  · simp [h]
  · have hb : (kh == k) = false := beq_eq_false_iff_ne.mpr h
    simp [h, hb]

/-- Lookup after a dict update: the written key reads the new value,
every other key is untouched. -/
theorem dictGet?_dictSet (d : PyDict β) (k : String) (v : β) (k' : String) :
    dictGet? (dictSet d k v) k' = if k' = k then some v else dictGet? d k' := by
  induction d with
  | nil =>
    simp only [dictSet, dictGet?_cons, dictGet?_nil]
    by_cases h : k' = k
    · subst h
      simp
    · rw [if_neg (fun hh : k = k' => h hh.symm), if_neg h]
  | cons p rest ih =>
    obtain ⟨kh, vh⟩ := p
    simp only [dictSet]
    by_cases hk : kh = k
    · subst hk
      rw [if_pos rfl, dictGet?_cons, dictGet?_cons]
      by_cases h : kh = k'
      · subst h
        rw [if_pos rfl, if_pos rfl]
      · rw [if_neg h, if_neg h, if_neg (fun hh : k' = kh => h hh.symm)]
    · rw [if_neg hk, dictGet?_cons, ih, dictGet?_cons]
      by_cases h : kh = k'
      · subst h
        rw [if_pos rfl, if_neg hk, if_pos rfl]
      · rw [if_neg h, if_neg h]

end Py

namespace GradeRowsScraper

/-- The invariant that a key of `row_data` only ever holds string
values. -/
def strAt (rd : Py.PyDict PyVal) (k : String) : Prop :=
  ∀ v, Py.dictGet? rd k = some v → ∃ s, v = PyVal.str s

/-- `completedDateFields` writes a string at `completed_date_raw` and
only touches `completed_date_iso` besides it. -/
theorem completedDateFields_strAt (cell : Cell) (rd : Py.PyDict PyVal) (k : String)
    (hk2 : k ≠ "completed_date_iso") (h : strAt rd k) :
    strAt (completedDateFields cell rd) k := by
  intro v hv
  unfold completedDateFields at hv
  dsimp only at hv
  have hshape : ∀ (a : String) (x : PyVal),
      Py.dictGet? (Py.dictSet (Py.dictSet rd "completed_date_raw" (.str a))
        "completed_date_iso" x) k = some v → ∃ s, v = PyVal.str s := by
    intro a x hv2
    rw [Py.dictGet?_dictSet, if_neg hk2, Py.dictGet?_dictSet] at hv2
    by_cases hr : k = "completed_date_raw"
    · rw [if_pos hr] at hv2
      exact ⟨a, (Option.some.injEq _ _ ▸ hv2).symm⟩
    · rw [if_neg hr] at hv2
      exact h v hv2
  split at hv
  · split at hv
    · exact hshape _ _ hv
    · exact hshape _ _ hv
  · exact hshape _ _ hv

/-- Field extraction preserves the string-only invariant at every key
other than `report_url` and `completed_date_iso` (the two keys that can
receive `None` or a datetime). -/
theorem processField_strAt (cells : HRow) (rd : Py.PyDict PyVal) (f : String) (c : Nat)
    (k : String) (hk1 : k ≠ "report_url") (hk2 : k ≠ "completed_date_iso")
    (h : strAt rd k) : strAt (processField cells rd f c) k := by
  intro v hv
  unfold processField at hv
  cases hget : cells.get? c with
  | none =>
    rw [hget] at hv
    exact h v hv
  | some cell =>
    rw [hget] at hv
    dsimp only at hv
    by_cases hf : f = "report_url"
    · rw [if_pos hf, Py.dictGet?_dictSet, if_neg hk1] at hv
      exact h v hv
    · rw [if_neg hf] at hv
      by_cases hcd : f = "completed_date"
      · rw [if_pos hcd] at hv
        exact completedDateFields_strAt cell rd k hk2 h v hv
      · rw [if_neg hcd] at hv
        have hset : ∀ (a : String),
            Py.dictGet? (Py.dictSet rd f (PyVal.str a)) k = some v → ∃ s, v = PyVal.str s := by
          intro a hv2
          rw [Py.dictGet?_dictSet] at hv2
          by_cases hkf : k = f
          · rw [if_pos hkf] at hv2
            exact ⟨a, (Option.some.injEq _ _ ▸ hv2).symm⟩
          · rw [if_neg hkf] at hv2
            exact h v hv2
        split at hv
        · exact hset _ hv
        · split at hv
          · exact hset _ hv
          · exact hset _ hv

/-- The whole column-map fold preserves the invariant. -/
theorem foldl_processField_strAt (cells : HRow) (k : String)
    (hk1 : k ≠ "report_url") (hk2 : k ≠ "completed_date_iso") :
    ∀ (cmap : Py.PyDict Nat) (rd : Py.PyDict PyVal), strAt rd k →
      strAt (cmap.foldl (fun acc p => processField cells acc p.1 p.2) rd) k := by
  intro cmap
  induction cmap with
  | nil => intro rd h; exact h
  | cons p rest ih =>
    intro rd h
    simp only [List.foldl_cons]
    exact ih _ (processField_strAt cells rd p.1 p.2 k hk1 hk2 h)

/-- The final report-URL validation touches only `report_url`. -/
theorem validateReportUrl_get (rd : Py.PyDict PyVal) (k : String) (hk : k ≠ "report_url") :
    Py.dictGet? (validateReportUrl rd) k = Py.dictGet? rd k := by
  unfold validateReportUrl
  split
  · split
    · rw [Py.dictGet?_dictSet, if_neg hk]
    · rfl
  · rfl

/-- A truthy optional value is a present, truthy value. -/
theorem pyTruthyOpt_some (o : Option PyVal) (h : pyTruthyOpt o = true) :
    ∃ v, o = some v ∧ pyTruthy v = true := by
  cases o with
  | none => exact absurd h (by simp [pyTruthyOpt])
  | some v => exact ⟨v, rfl, h⟩

/-- Every emitted grade row carries a non-empty string `cert_number` and
a non-empty string `tag_grade`. -/
theorem grade_rows_emitted_nonempty (tables : List GTable)
    (sport year set_title card_name card_url : String) (rd : Py.PyDict PyVal)
    (hmem : rd ∈ extract_grade_rows_from_card_page tables sport year set_title card_name card_url) :
    (∃ c, Py.dictGet? rd "cert_number" = some (PyVal.str c) ∧ c ≠ "") ∧
    (∃ t, Py.dictGet? rd "tag_grade" = some (PyVal.str t) ∧ t ≠ "") := by
  unfold extract_grade_rows_from_card_page at hmem
  cases hft : findTargetAux tables with
  | none =>
    rw [hft] at hmem
    simp at hmem
  | some tc =>
    obtain ⟨t, cmap⟩ := tc
    rw [hft] at hmem
    dsimp only at hmem
    rw [List.mem_filterMap] at hmem
    obtain ⟨row, _, hproc⟩ := hmem
    unfold processRow at hproc
    split at hproc
    · cases hproc
    · dsimp only at hproc
      by_cases hcert : (!pyTruthyOpt (Py.dictGet? (cmap.foldl
          (fun acc p => processField row acc p.1 p.2)
          (baseRowData sport year set_title card_name card_url)) "cert_number")) = true
      · rw [if_pos hcert] at hproc
        cases hproc
      · rw [if_neg hcert] at hproc
        by_cases htag : (!pyTruthyOpt (Py.dictGet? (cmap.foldl
            (fun acc p => processField row acc p.1 p.2)
            (baseRowData sport year set_title card_name card_url)) "tag_grade")) = true
        · rw [if_pos htag] at hproc
          cases hproc
        · rw [if_neg htag] at hproc
          have hrd : rd = validateReportUrl (cmap.foldl
              (fun acc p => processField row acc p.1 p.2)
              (baseRowData sport year set_title card_name card_url)) :=
            (Option.some.injEq _ _ ▸ hproc).symm
          have hbaseC : strAt (baseRowData sport year set_title card_name card_url)
              "cert_number" := by
            intro v hv
            rw [show Py.dictGet? (baseRowData sport year set_title card_name card_url)
              "cert_number" = none from rfl] at hv
            cases hv
          have hbaseT : strAt (baseRowData sport year set_title card_name card_url)
              "tag_grade" := by
            intro v hv
            rw [show Py.dictGet? (baseRowData sport year set_title card_name card_url)
              "tag_grade" = none from rfl] at hv
            cases hv
          have hfoldC := foldl_processField_strAt row "cert_number" (by decide) (by decide)
            cmap _ hbaseC
          have hfoldT := foldl_processField_strAt row "tag_grade" (by decide) (by decide)
            cmap _ hbaseT
          rw [Bool.not_eq_true', Bool.not_eq_false] at hcert htag
          obtain ⟨vc, hvc, hvc2⟩ := pyTruthyOpt_some _ hcert
          obtain ⟨vt, hvt, hvt2⟩ := pyTruthyOpt_some _ htag
          obtain ⟨cs, hcs⟩ := hfoldC vc hvc
          obtain ⟨ts, hts⟩ := hfoldT vt hvt
          subst hcs
          subst hts
          constructor
          · refine ⟨cs, ?_, ?_⟩
            · rw [hrd, validateReportUrl_get _ _ (by decide)]
              exact hvc
            · simpa [pyTruthy] using hvc2
          · refine ⟨ts, ?_, ?_⟩
            · rw [hrd, validateReportUrl_get _ _ (by decide)]
              exact hvt
            · simpa [pyTruthy] using hvt2

end GradeRowsScraper

open GradeRowsScraper in
/-- C5 (amended): the grade-row extractor emits a row only if it yields a
non-empty `cert_number` and a non-empty `tag_grade` (first conjunct, over
every page); on the fixture page the row lacking a cert-number cell is
dropped — not persisted — while the row with `cert_number = "X3032464"`
and `tag_grade = "8.5"` is emitted with exactly those values.  The claim's
"counted as skipped" does not hold: the skip is only logged; the last
conjunct shows the sole row-accounting statistics mutator never touches
`rows_skipped`, which stays at its initial 0. -/
theorem C5_grade_row_rejection_amended :
    (∀ (tables : List GTable) (sport year set_title card_name card_url : String)
        (rd : Py.PyDict PyVal),
        rd ∈ extract_grade_rows_from_card_page tables sport year set_title card_name card_url →
        (∃ c, Py.dictGet? rd "cert_number" = some (PyVal.str c) ∧ c ≠ "") ∧
        (∃ t, Py.dictGet? rd "tag_grade" = some (PyVal.str t) ∧ t ≠ "")) ∧
    gradeFixtureTable.dataRows.length = 2 ∧
    extract_grade_rows_from_card_page [gradeFixtureTable]
        "Baseball" "1989" "Donruss" "Gary Carter" "u" = [gradeFixtureRow] ∧
    Py.dictGet? gradeFixtureRow "cert_number" = some (PyVal.str "X3032464") ∧
    Py.dictGet? gradeFixtureRow "tag_grade" = some (PyVal.str "8.5") ∧
    (∀ (s : Orchestrator.PipelineStats) (tn op : String),
        (Orchestrator.add_table_operation s tn op).rows_skipped = s.rows_skipped) ∧
    Orchestrator.pipelineStatsInit.rows_skipped = 0 := by
  refine ⟨grade_rows_emitted_nonempty, rfl, rfl, rfl, rfl, ?_, rfl⟩
  intro s tn op
  unfold Orchestrator.add_table_operation
  dsimp only
  repeat' split
  all_goals rfl

open GradeRowsScraper in
/-- C5 counterexample to "counted as skipped": running the orchestrator's
grade-row step on the fixture page (two table rows, one of which lacks a
cert-number cell) stores exactly one row — the dropped row is not
persisted — yet the run statistics still show `rows_skipped = 0`; the
claim requires the skipped row to be counted. -/
theorem C5_skip_count_counterexample :
    (Orchestrator.scrape_card_grade_rows 0 Orchestrator.pipelineStatsInit []
        [gradeFixtureTable] "Baseball" "1989" "Donruss" "Gary Carter" "u").1.rows_skipped = 0 ∧
    (Orchestrator.scrape_card_grade_rows 0 Orchestrator.pipelineStatsInit []
        [gradeFixtureTable] "Baseball" "1989" "Donruss" "Gary Carter" "u").2.2 = 1 ∧
    (Orchestrator.scrape_card_grade_rows 0 Orchestrator.pipelineStatsInit []
        [gradeFixtureTable] "Baseball" "1989" "Donruss" "Gary Carter" "u").2.1.length = 1 ∧
    gradeFixtureTable.dataRows.length = 2 :=
  ⟨rfl, rfl, rfl, rfl⟩

open GradeRowsScraper in
/-- Witness for C5: the fixture page's emitted row satisfies the
emission property at a concrete input. -/
theorem C5_grade_row_rejection_amended_witness :
    (∃ c, Py.dictGet? gradeFixtureRow "cert_number" = some (PyVal.str c) ∧ c ≠ "") ∧
    (∃ t, Py.dictGet? gradeFixtureRow "tag_grade" = some (PyVal.str t) ∧ t ≠ "") := by
  have hmem : gradeFixtureRow ∈ extract_grade_rows_from_card_page [gradeFixtureTable]
      "Baseball" "1989" "Donruss" "Gary Carter" "u" := by
    rw [show extract_grade_rows_from_card_page [gradeFixtureTable]
      "Baseball" "1989" "Donruss" "Gary Carter" "u" = [gradeFixtureRow] from rfl]
    exact List.mem_singleton_self _
  exact C5_grade_row_rejection_amended.1 [gradeFixtureTable]
    "Baseball" "1989" "Donruss" "Gary Carter" "u" gradeFixtureRow hmem

/-- C6: the split itself behaves as claimed — `"DonrussNight Moves"`
gives base `Donruss`, variant `Night Moves`; `"Upper Deck"` gives base
`Upper Deck`, no variant, and its URL has no query string — but the
constructed URL for the variant carries `?setName=Night%20Moves`, not the
claimed `?setName=Night+Moves`: `build_set_page_url` uses
`urllib.parse.quote`, which encodes a space as `%20`, while its own
comment says "replace spaces with +" (that would be `quote_plus`). -/
theorem C6_base_variant_split_url :
    UrlBuilder.find_base_set "DonrussNight Moves" = ("Donruss", some "Night Moves") ∧
    UrlBuilder.build_set_page_url "Soccer" "2024" "DonrussNight Moves" BASE_URL =
      "https://my.taggrading.com/pop-report/Soccer/2024/Donruss?setName=Night%20Moves" ∧
    Py.pyIn "?setName=Night+Moves"
      (UrlBuilder.build_set_page_url "Soccer" "2024" "DonrussNight Moves" BASE_URL) = false ∧
    Py.pyIn "?setName=Night%20Moves"
      (UrlBuilder.build_set_page_url "Soccer" "2024" "DonrussNight Moves" BASE_URL) = true ∧
    UrlBuilder.find_base_set "Upper Deck" = ("Upper Deck", none) ∧
    UrlBuilder.build_set_page_url "Soccer" "2024" "Upper Deck" BASE_URL =
      "https://my.taggrading.com/pop-report/Soccer/2024/Upper Deck" ∧
    Py.pyIn "?" (UrlBuilder.build_set_page_url "Soccer" "2024" "Upper Deck" BASE_URL) = false := by
  refine ⟨by decide, by decide, by decide, by decide, by decide, by decide, by decide⟩

namespace RateLimiter

/-- A non-interleaved rate-limit section never starts before the
previous request time plus the interval. -/
theorem nonInterleavedStart_ge (L last c : Nat) (h : last ≤ c) :
    last + L ≤ nonInterleavedStart L last c := by
  unfold nonInterleavedStart
  split
  · exact Nat.le_refl _
  · omega

/-- Sequential executions give pairwise gaps of at least `L`, and every
start lies at or after `last + L`. -/
theorem seqStarts_spec (L : Nat) : ∀ (es : List Nat) (last : Nat),
    (∀ x ∈ seqStarts L last es, last + L ≤ x) ∧
    (seqStarts L last es).Pairwise (fun a b => a + L ≤ b) := by
  intro es
  induction es with
  | nil =>
    intro last
    exact ⟨by simp [seqStarts], by simp [seqStarts]⟩
  | cons e rest ih =>
    intro last
    have hst : last + L ≤ nonInterleavedStart L last (max e last) :=
      nonInterleavedStart_ge L last (max e last) (Nat.le_max_right e last)
    constructor
    · intro x hx
      simp only [seqStarts] at hx
      rcases List.mem_cons.mp hx with h | h
      · subst h
        exact hst
      · have := (ih (nonInterleavedStart L last (max e last))).1 x h
        omega
    · simp only [seqStarts]
      refine List.Pairwise.cons ?_ (ih _).2
      intro y hy
      have := (ih (nonInterleavedStart L last (max e last))).1 y hy
      omega

end RateLimiter

/-- C7 counterexample: with interval `L = 10 > 0` and three concurrent
fetches to one host, the thundering-herd schedule is a valid execution of
`_rate_limit_request`'s event-loop semantics in which tasks 1 and 2 both
start their requests at time 110 — two request start times separated by
`0 < L`.  Both sleepers read the same stale `last = 100` because no lock
protects the per-host map across the sleep. -/
theorem C7_rate_limit_interleaving_counterexample :
    (10 : Nat) > 0 ∧
    RateLimiter.herdSys.tasks.length = 3 ∧
    RateLimiter.execTrace 10 RateLimiter.herdSys RateLimiter.herdOps =
      some { clock := 110, last := 110,
             tasks := [.started 100, .started 110, .started 110] } ∧
    (110 : Nat) - 110 < 10 :=
  ⟨by decide, rfl, rfl, by decide⟩

/-- C7 (amended): when invocations of the rate-limiting section for a
host do **not** interleave — each runs to completion, including its
sleep, before the next reads the map — every request starts at least `L`
after the previous map value, and any two start times of a sequential
run are at least `L` apart.  Under concurrent interleaving the code
provides no mutual exclusion for the per-host map and the bound can be
violated (see the counterexample). -/
theorem C7_rate_limit_amended :
    (∀ (L last c : Nat), last ≤ c →
        last + L ≤ RateLimiter.nonInterleavedStart L last c) ∧
    (∀ (L last : Nat) (es : List Nat),
        (RateLimiter.seqStarts L last es).Pairwise (fun a b => a + L ≤ b)) :=
  ⟨RateLimiter.nonInterleavedStart_ge,
   fun L last es => (RateLimiter.seqStarts_spec L es last).2⟩

/-- Witness for C7 at concrete numbers. -/
theorem C7_rate_limit_amended_witness :
    (0 : Nat) ≤ 100 ∧ 0 + 10 ≤ RateLimiter.nonInterleavedStart 10 0 100 :=
  ⟨by decide, C7_rate_limit_amended.1 10 0 100 (by decide)⟩

namespace Py

/-- Deleting a key removes its binding. -/
theorem dictGet?_dictDel_self (d : PyDict β) (k : String) :
    dictGet? (dictDel d k) k = none := by
  induction d with
  | nil => rfl
  | cons p rest ih =>
    obtain ⟨kh, vh⟩ := p
    by_cases h : kh = k
    · subst h
      simpa [dictDel] using ih
    · have hcons : dictDel ((kh, vh) :: rest) k = (kh, vh) :: dictDel rest k := by
        simp [dictDel, List.filter_cons, bne, beq_eq_false_iff_ne.mpr h]
      rw [hcons, dictGet?_cons, if_neg h]
      exact ih

end Py

namespace CacheM

/-- C8 proof core, memory-hit case. -/
theorem cacheGet_memory_hit {α : Type} (st : CacheState α) (now : Int)
    (dir key cat : String) (ttl? : Option Int) (dflt : Int) (db : Bool) (v : α) (ts : Int)
    (hmem : Py.dictGet? st.memory (_get_cache_key key cat) = some (v, ts))
    (hv : _is_cache_valid now ts (effectiveTtl ttl? dflt) = true) :
    cacheGet st now dir key cat ttl? dflt db = (some v, st) := by
  unfold cacheGet
  dsimp only
  rw [hmem]
  dsimp only
  rw [hv, if_pos rfl]

/-- C8 proof core, everything expired. -/
theorem cacheGet_all_expired {α : Type} (st : CacheState α) (now : Int)
    (dir key cat : String) (ttl? : Option Int) (dflt : Int) (db : Bool) (v : α) (ts : Int)
    (fd : α × Int × Option String)
    (hmem : Py.dictGet? st.memory (_get_cache_key key cat) = some (v, ts))
    (hv : _is_cache_valid now ts (effectiveTtl ttl? dflt) = false)
    (hfile : Py.dictGet? st.files (_get_file_path dir (_get_cache_key key cat)) = some fd)
    (hfv : _is_cache_valid now fd.2.1 (effectiveTtl ttl? dflt) = false) :
    cacheGet st now dir key cat ttl? dflt db =
      (none, { memory := Py.dictDel st.memory (_get_cache_key key cat),
               files := Py.dictDel st.files (_get_file_path dir (_get_cache_key key cat)) }) := by
  unfold cacheGet
  dsimp only
  rw [hmem]
  dsimp only
  rw [hv, if_neg Bool.false_ne_true]
  unfold cacheGetFile
  dsimp only
  rw [hfile]
  dsimp only
  rw [hfv, if_neg Bool.false_ne_true]
  cases db <;> rfl

/-- C8 proof core, memory expired and no file entry. -/
theorem cacheGet_memory_expired_no_file {α : Type} (st : CacheState α) (now : Int)
    (dir key cat : String) (ttl? : Option Int) (dflt : Int) (db : Bool) (v : α) (ts : Int)
    (hmem : Py.dictGet? st.memory (_get_cache_key key cat) = some (v, ts))
    (hv : _is_cache_valid now ts (effectiveTtl ttl? dflt) = false)
    (hfile : Py.dictGet? st.files (_get_file_path dir (_get_cache_key key cat)) = none) :
    cacheGet st now dir key cat ttl? dflt db =
      (none, { st with memory := Py.dictDel st.memory (_get_cache_key key cat) }) := by
  unfold cacheGet
  dsimp only
  rw [hmem]
  dsimp only
  rw [hv, if_neg Bool.false_ne_true]
  unfold cacheGetFile
  dsimp only
  rw [hfile]
  dsimp only
  cases db <;> rfl

/-- C8 proof core, file hit with promotion. -/
theorem cacheGet_file_hit_promotes {α : Type} (st : CacheState α) (now : Int)
    (dir key cat : String) (ttl? : Option Int) (dflt : Int) (db : Bool)
    (fd : α × Int × Option String)
    (hmem : Py.dictGet? st.memory (_get_cache_key key cat) = none)
    (hfile : Py.dictGet? st.files (_get_file_path dir (_get_cache_key key cat)) = some fd)
    (hfv : _is_cache_valid now fd.2.1 (effectiveTtl ttl? dflt) = true) :
    cacheGet st now dir key cat ttl? dflt db =
      (some fd.1,
       { st with memory := Py.dictSet st.memory (_get_cache_key key cat) (fd.1, fd.2.1) }) := by
  unfold cacheGet
  dsimp only
  rw [hmem]
  dsimp only
  unfold cacheGetFile
  dsimp only
  rw [hfile]
  dsimp only
  rw [hfv, if_pos rfl]

/-- C8 proof core, memory miss and expired file. -/
theorem cacheGet_file_expired {α : Type} (st : CacheState α) (now : Int)
    (dir key cat : String) (ttl? : Option Int) (dflt : Int) (db : Bool)
    (fd : α × Int × Option String)
    (hmem : Py.dictGet? st.memory (_get_cache_key key cat) = none)
    (hfile : Py.dictGet? st.files (_get_file_path dir (_get_cache_key key cat)) = some fd)
    (hfv : _is_cache_valid now fd.2.1 (effectiveTtl ttl? dflt) = false) :
    cacheGet st now dir key cat ttl? dflt db =
      (none, { st with files := Py.dictDel st.files (_get_file_path dir (_get_cache_key key cat)) }) := by
  unfold cacheGet
  dsimp only
  rw [hmem]
  dsimp only
  unfold cacheGetFile
  dsimp only
  rw [hfile]
  dsimp only
  rw [hfv, if_neg Bool.false_ne_true]
  cases db <;> rfl

end CacheM

open CacheM in
/-- C8: a get whose entry has `stored-timestamp + TTL` not in the future
(`_is_cache_valid` false, i.e. `now - ts ≥ ttl`) is a miss and physically
removes the entry from the tier where it was found — the in-memory
binding is deleted, an expired cache file is removed; a get within the
TTL returns the stored value; and a file-tier hit within TTL also
promotes the value (with its original timestamp) into the in-memory
tier.  The database tier is a placeholder returning `None`, so the
overall result on the expired paths is a miss whether or not it is
enabled. -/
theorem C8_cache_expiry_and_promotion :
    (∀ (α : Type) (st : CacheState α) (now : Int) (dir key cat : String)
        (ttl? : Option Int) (dflt : Int) (db : Bool) (v : α) (ts : Int),
        Py.dictGet? st.memory (_get_cache_key key cat) = some (v, ts) →
        _is_cache_valid now ts (effectiveTtl ttl? dflt) = true →
        cacheGet st now dir key cat ttl? dflt db = (some v, st)) ∧
    (∀ (α : Type) (st : CacheState α) (now : Int) (dir key cat : String)
        (ttl? : Option Int) (dflt : Int) (db : Bool) (v : α) (ts : Int),
        Py.dictGet? st.memory (_get_cache_key key cat) = some (v, ts) →
        _is_cache_valid now ts (effectiveTtl ttl? dflt) = false →
        Py.dictGet? st.files (_get_file_path dir (_get_cache_key key cat)) = none →
        cacheGet st now dir key cat ttl? dflt db =
          (none, { st with memory := Py.dictDel st.memory (_get_cache_key key cat) }) ∧
        Py.dictGet? (Py.dictDel st.memory (_get_cache_key key cat))
          (_get_cache_key key cat) = none) ∧
    (∀ (α : Type) (st : CacheState α) (now : Int) (dir key cat : String)
        (ttl? : Option Int) (dflt : Int) (db : Bool) (fd : α × Int × Option String),
        Py.dictGet? st.memory (_get_cache_key key cat) = none →
        Py.dictGet? st.files (_get_file_path dir (_get_cache_key key cat)) = some fd →
        _is_cache_valid now fd.2.1 (effectiveTtl ttl? dflt) = true →
        cacheGet st now dir key cat ttl? dflt db =
          (some fd.1, { st with memory := Py.dictSet st.memory (_get_cache_key key cat) (fd.1, fd.2.1) })) ∧
    (∀ (α : Type) (st : CacheState α) (now : Int) (dir key cat : String)
        (ttl? : Option Int) (dflt : Int) (db : Bool) (fd : α × Int × Option String),
        Py.dictGet? st.memory (_get_cache_key key cat) = none →
        Py.dictGet? st.files (_get_file_path dir (_get_cache_key key cat)) = some fd →
        _is_cache_valid now fd.2.1 (effectiveTtl ttl? dflt) = false →
        cacheGet st now dir key cat ttl? dflt db =
          (none, { st with files := Py.dictDel st.files (_get_file_path dir (_get_cache_key key cat)) }) ∧
        Py.dictGet? (Py.dictDel st.files (_get_file_path dir (_get_cache_key key cat)))
          (_get_file_path dir (_get_cache_key key cat)) = none) ∧
    (∀ (α : Type) (st : CacheState α) (now : Int) (dir key cat : String)
        (ttl? : Option Int) (dflt : Int) (db : Bool) (v : α) (ts : Int)
        (fd : α × Int × Option String),
        Py.dictGet? st.memory (_get_cache_key key cat) = some (v, ts) →
        _is_cache_valid now ts (effectiveTtl ttl? dflt) = false →
        Py.dictGet? st.files (_get_file_path dir (_get_cache_key key cat)) = some fd →
        _is_cache_valid now fd.2.1 (effectiveTtl ttl? dflt) = false →
        cacheGet st now dir key cat ttl? dflt db =
          (none, { memory := Py.dictDel st.memory (_get_cache_key key cat), files := Py.dictDel st.files (_get_file_path dir (_get_cache_key key cat)) })) := by
  refine ⟨fun α => cacheGet_memory_hit, ?_, fun α => cacheGet_file_hit_promotes, ?_, ?_⟩
  · intro α st now dir key cat ttl? dflt db v ts hmem hv hfile
    exact ⟨cacheGet_memory_expired_no_file st now dir key cat ttl? dflt db v ts hmem hv hfile,
      Py.dictGet?_dictDel_self _ _⟩
  · intro α st now dir key cat ttl? dflt db fd hmem hfile hfv
    exact ⟨cacheGet_file_expired st now dir key cat ttl? dflt db fd hmem hfile hfv,
      Py.dictGet?_dictDel_self _ _⟩
  · intro α st now dir key cat ttl? dflt db v ts fd hmem hv hfile hfv
    exact cacheGet_all_expired st now dir key cat ttl? dflt db v ts fd hmem hv hfile hfv

open CacheM in
/-- Witness for C8 at a concrete store: a one-entry memory tier read
within its TTL and again after it expired. -/
theorem C8_cache_expiry_and_promotion_witness :
    (Py.dictGet? [( _get_cache_key "sets_Baseball_1989" "sets", (5, (100 : Int)))]
        (_get_cache_key "sets_Baseball_1989" "sets") = some (5, (100 : Int))) ∧
    _is_cache_valid 200 100 (effectiveTtl none 3600) = true ∧
    cacheGet (⟨[(_get_cache_key "sets_Baseball_1989" "sets", (5, 100))], []⟩ : CacheState Nat)
        200 "cache" "sets_Baseball_1989" "sets" none 3600 true =
      (some 5, ⟨[(_get_cache_key "sets_Baseball_1989" "sets", (5, 100))], []⟩) ∧
    _is_cache_valid 99999 100 (effectiveTtl none 3600) = false ∧
    cacheGet (⟨[(_get_cache_key "sets_Baseball_1989" "sets", (5, 100))], []⟩ : CacheState Nat)
        99999 "cache" "sets_Baseball_1989" "sets" none 3600 true =
      (none, ⟨Py.dictDel [(_get_cache_key "sets_Baseball_1989" "sets", (5, 100))]
        (_get_cache_key "sets_Baseball_1989" "sets"), []⟩) := by
  refine ⟨by decide, by decide, ?_, by decide, ?_⟩
  · exact C8_cache_expiry_and_promotion.1 Nat _ 200 "cache" "sets_Baseball_1989" "sets"
      none 3600 true 5 100 (by decide) (by decide)
  · exact (C8_cache_expiry_and_promotion.2.1 Nat _ 99999 "cache" "sets_Baseball_1989" "sets"
      none 3600 true 5 100 (by decide) (by decide) (by decide)).1

/-- C9 counterexample: the two concrete spellings of the same logical
scope — sport Soccer, year 2024, set Donruss, variant `Night Moves`,
once with `+` and once with `%20` for the space — have different
`fetch_html` cache keys (md5 of the URL string), so a response cached
under the first is **not** returned for the second: that fetch goes back
to the network, against the claim that cache keys depend only on the
logical crawl identity. -/
theorem C9_cache_key_counterexample :
    Client._get_cache_key urlPlus ≠ Client._get_cache_key urlPct ∧
    (Client.fetch_html [(Client._get_cache_key urlPlus, ("cached", 0))] 1 true true 3600
        urlPct (fun _ => .ok "fresh")).networkCalls = 1 ∧
    (Client.fetch_html [(Client._get_cache_key urlPlus, ("cached", 0))] 1 true true 3600
        urlPct (fun _ => .ok "fresh")).result = .ok "fresh" ∧
    (Client.fetch_html [(Client._get_cache_key urlPlus, ("cached", 0))] 1 true true 3600
        urlPlus (fun _ => .ok "fresh")).result = .ok "cached" ∧
    (Client.fetch_html [(Client._get_cache_key urlPlus, ("cached", 0))] 1 true true 3600
        urlPlus (fun _ => .ok "fresh")).networkCalls = 0 := by
  refine ⟨by decide, by decide, rfl, rfl, by decide⟩

namespace Client

/-- The cache-hit behaviour of `fetch_html` against a one-entry cache:
the cached response is returned without a network call exactly when the
requested URL's md5 matches the stored key; otherwise the network is
consulted. -/
theorem fetch_html_key_behaviour (url1 url2 content fresh : String) (ts now cttl : Int)
    (h : now - ts < cttl) :
    (MD5.md5hex url2 = MD5.md5hex url1 →
      fetch_html [(_get_cache_key url1, (content, ts))] now true true cttl url2
          (fun _ => .ok fresh) =
        ⟨.ok content, [(_get_cache_key url1, (content, ts))], 0⟩) ∧
    (MD5.md5hex url2 ≠ MD5.md5hex url1 →
      (fetch_html [(_get_cache_key url1, (content, ts))] now true true cttl url2
          (fun _ => .ok fresh)).networkCalls = 1 ∧
      (fetch_html [(_get_cache_key url1, (content, ts))] now true true cttl url2
          (fun _ => .ok fresh)).result = .ok fresh) := by
  constructor
  · intro heq
    unfold fetch_html
    dsimp only
    rw [show _get_cache_key url2 = _get_cache_key url1 from heq]
    rw [Py.dictGet?_cons, if_pos rfl]
    have hv : _is_cache_valid true now ts cttl = true := by
      simp [_is_cache_valid, h]
    simp [hv]
  · intro hne
    unfold fetch_html
    dsimp only
    rw [Py.dictGet?_cons, if_neg (fun hh : _get_cache_key url1 = _get_cache_key url2 =>
      hne hh.symm)]
    exact ⟨rfl, rfl⟩

end Client

/-- C9 (amended): the scrape-level caches are keyed by composed logical
identity — `get_sets` uses key `sets_{sport}_{year}` in category `sets`,
a function of sport and year only — but the HTTP client's response cache
(and the card-detail cache) is keyed by the md5 hash of the exact fetch
URL string: a repeat fetch hits the client cache exactly when the URL
string hashes identically, not when merely the logical scope matches, so
differently formatted URLs of the same scope use distinct entries. -/
theorem C9_cache_key_amended :
    (∀ sport year : String,
        Client.get_sets_key sport year = ("sets_" ++ sport ++ "_" ++ year, "sets")) ∧
    (∀ url : String, Client._get_cache_key url = MD5.md5hex url) ∧
    (∀ (url1 url2 content fresh : String) (ts now cttl : Int),
        now - ts < cttl →
        (MD5.md5hex url2 = MD5.md5hex url1 →
          Client.fetch_html [(Client._get_cache_key url1, (content, ts))] now true true cttl
              url2 (fun _ => .ok fresh) =
            ⟨.ok content, [(Client._get_cache_key url1, (content, ts))], 0⟩) ∧
        (MD5.md5hex url2 ≠ MD5.md5hex url1 →
          (Client.fetch_html [(Client._get_cache_key url1, (content, ts))] now true true cttl
              url2 (fun _ => .ok fresh)).networkCalls = 1 ∧
          (Client.fetch_html [(Client._get_cache_key url1, (content, ts))] now true true cttl
              url2 (fun _ => .ok fresh)).result = .ok fresh)) :=
  ⟨fun _ _ => rfl, fun _ => rfl,
   fun url1 url2 content fresh ts now cttl h =>
     Client.fetch_html_key_behaviour url1 url2 content fresh ts now cttl h⟩

/-- Witness for C9: a same-URL refetch hits the cache. -/
theorem C9_cache_key_amended_witness :
    ((0 : Int) - 0 < 3600) ∧
    Client.fetch_html [(Client._get_cache_key "u", ("c", 0))] 0 true true 3600 "u"
        (fun _ => .ok "f") = ⟨.ok "c", [(Client._get_cache_key "u", ("c", 0))], 0⟩ :=
  ⟨by decide,
   (C9_cache_key_amended.2.2 "u" "u" "c" "f" 0 0 3600 (by decide)).1 rfl⟩

namespace Client

/-- The `result_dict` built by `fetch_multiple` maps every input URL to
its outcome and holds nothing else. -/
theorem dictGet?_fold_outcome (outcome : String → Option String) :
    ∀ (urls : List String) (d : Py.PyDict (Option String)) (u : String),
      Py.dictGet? (urls.foldl (fun d url => Py.dictSet d url (outcome url)) d) u =
        if u ∈ urls then some (outcome u) else Py.dictGet? d u := by
  intro urls
  induction urls with
  | nil =>
    intro d u
    simp
  | cons a rest ih =>
    intro d u
    simp only [List.foldl_cons]
    rw [ih]
    by_cases hu : u ∈ rest
    · simp [hu]
    · rw [if_neg hu, Py.dictGet?_dictSet]
      by_cases ha : u = a
      · subst ha
        simp [hu]
      · rw [if_neg ha, if_neg (by simp [ha, hu])]

end Client

/-- C10: `fetch_multiple` returns exactly one `(url, result)` pair per
input URL, in input order, where the result is that URL's fetched HTML on
success and `None` when its fetch raised (the per-URL task catches every
exception into `result_dict[url] = None`, so one URL's failure neither
stops the others nor escapes `fetch_multiple` — the modelled function is
total). -/
theorem C10_fetch_multiple_order_isolation (outcome : String → Option String)
    (urls : List String) :
    Client.fetch_multiple outcome urls = urls.map (fun u => (u, outcome u)) ∧
    (Client.fetch_multiple outcome urls).map Prod.fst = urls ∧
    (Client.fetch_multiple outcome urls).length = urls.length := by
  have hmain : Client.fetch_multiple outcome urls = urls.map (fun u => (u, outcome u)) := by
    unfold Client.fetch_multiple
    dsimp only
    refine List.map_congr_left ?_
    intro u hu
    rw [Client.dictGet?_fold_outcome outcome urls [] u, if_pos hu]
    rfl
  refine ⟨hmain, ?_, ?_⟩
  · have hcomp : (Prod.fst ∘ fun u : String => (u, outcome u)) = fun u => u := rfl
    rw [hmain, List.map_map, hcomp]
    simp
  · rw [hmain, List.length_map]
